import Mathlib

/-!
Verification development for the spreadsheet structure-detection /
cleaning / key-value parsing core of the `sow-irl-verification-pipeline`
repository (`Validator/structure_detector.py`, `Validator/data_cleaner.py`,
`Validator/date_time_detector.py`, `Validator/unstructured_parser.py`).

The Python code is shallowly embedded: grids are lists of lists of `Cell`
values, Python `float` scores are modelled with exact rationals (every
comparison performed by the code is between small-denominator rationals and
the literals 0.5 / 0.7 / 0.3, where exact rational comparison and IEEE-double
comparison agree), Python dicts keyed by strings are association lists in
insertion order, and the two third-party date parsers (pandas, dateutil) are
modelled by an explicitly named stub (see `externalDateParse`).
-/

namespace Validator

/-! ## Python-flavoured character and string helpers -/

/-- ASCII decimal digit, the `\d` class of the patterns used by the code
(all strings fed to them in this development are ASCII). -/
def isDigitChar (c : Char) : Bool := '0' ≤ c && c ≤ '9'

/-- ASCII upper-case letter, the `[A-Z]` class. -/
def isUpperChar (c : Char) : Bool := 'A' ≤ c && c ≤ 'Z'

/-- ASCII lower-case letter, the `[a-z]` class. -/
def isLowerChar (c : Char) : Bool := 'a' ≤ c && c ≤ 'z'

/-- ASCII letter, the `[A-Za-z]` class. -/
def isAlphaChar (c : Char) : Bool := isUpperChar c || isLowerChar c

/-- Python `str.isspace` / the `\s` class, restricted to ASCII whitespace. -/
def isSpaceChar (c : Char) : Bool :=
  c = ' ' || c = '\t' || c = '\n' || c = '\x0d' || c = '\x0b' || c = '\x0c'

/-- Word character, the `\w` class (ASCII: letters, digits, underscore). -/
def isWordChar (c : Char) : Bool := isAlphaChar c || isDigitChar c || c = '_'

/-- Python `str.strip()` on a character list: drop leading and trailing
whitespace. -/
def pyStripList (l : List Char) : List Char :=
  ((l.dropWhile isSpaceChar).reverse.dropWhile isSpaceChar).reverse

/-- Python `str.strip()`. -/
def pyStrip (s : String) : String := String.mk (pyStripList s.toList)

/-- Python `str.strip('_')`: drop leading and trailing underscores. -/
def stripUnderscores (s : String) : String :=
  String.mk (((s.toList.dropWhile (· = '_')).reverse.dropWhile (· = '_')).reverse)

/-- ASCII lower-casing of one character (Python `str.lower` on the ASCII
strings this development uses). -/
def lowerChar (c : Char) : Char :=
  if isUpperChar c then Char.ofNat (c.toNat + 32) else c

/-- Python `str.lower()` (ASCII). -/
def pyLower (s : String) : String := String.mk (s.toList.map lowerChar)

/-- Python `str.upper()` applied to one character (ASCII). -/
def upperChar (c : Char) : Char :=
  if isLowerChar c then Char.ofNat (c.toNat - 32) else c

/-- Python `str.upper()` (ASCII). -/
def pyUpper (s : String) : String := String.mk (s.toList.map upperChar)

/-- Python `str.isupper()`: at least one cased character and no lower-case
cased character (ASCII letters are the only cased characters here). -/
def pyIsUpper (s : String) : Bool :=
  s.toList.any isAlphaChar && s.toList.all (fun c => !(isLowerChar c))

/-- Membership of a character list as a contiguous sublist of another, the
semantics of Python's `needle in haystack` on strings. -/
def listContainsSub (needle hay : List Char) : Bool :=
  hay.tails.any (fun t => needle.isPrefixOf t)

/-- Python `needle in haystack` on strings. -/
def strContains (hay needle : String) : Bool :=
  listContainsSub needle.toList hay.toList

/-- Python `str.endswith(suffix)` (list-based; `String.endsWith` does not
reduce definitionally). -/
def pyEndsWith (s suffix : String) : Bool :=
  suffix.toList.isSuffixOf s.toList

/-- Python `str.split()` with no argument: split on whitespace runs,
discarding empty words. -/
def pySplitWS (s : String) : List String :=
  ((s.toList.splitOnP isSpaceChar).filter (· ≠ [])).map String.mk

/-- Python `' '.join(words)`. -/
def joinSpace (ws : List String) : String := String.intercalate " " ws

/-- Python `str.split(sep, 1)`: split at the first occurrence of a
single-character separator, returning `none` when the separator is absent. -/
def splitFirst (sep : Char) (s : String) : Option (String × String) :=
  match s.toList.splitOnP (· = sep) with
  | [] => none
  | [_] => none
  | x :: y :: rest =>
      some (String.mk x, String.mk (List.intercalate [sep] (y :: rest)))

/-! ## Cell values

Raw grid cells loaded from a sheet are `None`, strings, or integers; the
cleaner's type application additionally produces rational ("float"/Int64)
and boolean cells. `Cell.rat` never occurs in a raw grid fed to the
detector. -/

inductive Cell where
  | none
  | str (s : String)
  | int (n : Int)
  | rat (q : ℚ)
  | bool (b : Bool)
deriving DecidableEq, Repr

/-- Python `str(cell)`. Strings are themselves, integers print in decimal,
`None` prints as `"None"`, booleans as `"True"`/`"False"`. The rendering of
`Cell.rat` (a converted float column value) is never consulted by the code
paths modelled here; a placeholder rendering is used. -/
def pyStr : Cell → String
  | Cell.none => "None"
  | Cell.str s => s
  | Cell.int n => toString n
  | Cell.rat q => toString q
  | Cell.bool b => if b then "True" else "False"

/-- Python `isinstance(cell, str)`. -/
def isStrCell : Cell → Bool
  | Cell.str _ => true
  | _ => false

/-- The test `cell is not None and str(cell).strip()` used throughout
`structure_detector.py` to decide whether a cell holds data. -/
def cellHasData (c : Cell) : Bool :=
  c ≠ Cell.none && pyStrip (pyStr c) ≠ ""

/-- One sheet: a list of rows of cells (rows may have different lengths,
exactly as the Python grid). -/
abbrev Grid := List (List Cell)

/-! ## Python `float(...)` literal parsing

`structure_detector.get_cell_type` and the Excel-serial fallback of
`date_time_detector.parse_date` call `float(str(cell))` inside `try`.
The grammar below is CPython's: optional surrounding whitespace, optional
sign, then either `inf`/`infinity`/`nan` (case-insensitive) or a decimal
literal with optional fraction and exponent, underscores permitted between
digits. Finite values are represented exactly as rationals. -/

inductive PyFloat where
  | finite (q : ℚ)
  | inf
  | ninf
  | nan
deriving DecidableEq, Repr

/-- Consume a maximal run of digits in which single underscores may sit
between two digits (the body of a CPython `digitpart`), returning the digit
characters (underscores removed) and the remaining input. -/
def takeDigitsUS : List Char → List Char × List Char
  | [] => ([], [])
  | [c] => if isDigitChar c then ([c], ([] : List Char)) else ([], [c])
  | c :: c' :: l =>
    if isDigitChar c then
      if isDigitChar c' then
        let (ds, r) := takeDigitsUS (c' :: l)
        (c :: ds, r)
      else if c' = '_' then
        match l with
        | d :: l' =>
          if isDigitChar d then
            let (ds, r) := takeDigitsUS (d :: l')
            (c :: ds, r)
          else ([c], c' :: l)
        | [] => ([c], [c'])
      else ([c], c' :: l)
    else ([], c :: c' :: l)

/-- Consume a CPython `digitpart`: `digit (["_"] digit)*`. Fails if the
input does not start with a digit. -/
def takeDigitPart (l : List Char) : Option (List Char × List Char) :=
  match l with
  | c :: _ => if isDigitChar c then some (takeDigitsUS l) else Option.none
  | [] => Option.none

/-- Numeric value of a list of decimal digit characters. -/
def digitsToNat (ds : List Char) : ℕ :=
  ds.foldl (fun a c => a * 10 + (c.toNat - 48)) 0

/-- Parse the unsigned part of a CPython float literal (after sign removal):
`inf`, `infinity`, `nan`, or `digitpart? (. digitpart?)? ((e|E) sign? digitpart)?`
with at least one mantissa digit. Returns the exact value. -/
def parseUnsignedFloat (l : List Char) : Option PyFloat :=
  let low := l.map lowerChar
  if low = "inf".toList || low = "infinity".toList then some PyFloat.inf
  else if low = "nan".toList then some PyFloat.nan
  else
    let (ipart, l₁) := match takeDigitPart l with
      | some (ds, r) => (ds, r)
      | Option.none => (([] : List Char), l)
    let (fpart, l₂) := match l₁ with
      | '.' :: r =>
        (match takeDigitPart r with
         | some (ds, r') => (ds, r')
         | Option.none => (([] : List Char), r))
      | _ => (([] : List Char), l₁)
    if ipart = [] ∧ fpart = [] then Option.none
    else
      let mant : ℚ := (digitsToNat ipart : ℚ) +
        (digitsToNat fpart : ℚ) / ((10 : ℚ) ^ fpart.length)
      match l₂ with
      | [] => some (PyFloat.finite mant)
      | e :: r =>
        if e = 'e' ∨ e = 'E' then
          let (esign, r₁) : (Bool × List Char) := match r with
            | '+' :: r' => (false, r')
            | '-' :: r' => (true, r')
            | _ => (false, r)
          match takeDigitPart r₁ with
          | some (ds, []) =>
            let ex := digitsToNat ds
            let scale : ℚ := if esign then 1 / (10 : ℚ) ^ ex else (10 : ℚ) ^ ex
            some (PyFloat.finite (mant * scale))
          | _ => Option.none
        else Option.none

/-- Python `float(s)`, as an exact value; `none` models `ValueError`. -/
def pyFloatOfString (s : String) : Option PyFloat :=
  let l := pyStripList s.toList
  match l with
  | '+' :: r => parseUnsignedFloat r
  | '-' :: r =>
    (parseUnsignedFloat r).map fun v =>
      match v with
      | PyFloat.finite q => PyFloat.finite (-q)
      | PyFloat.inf => PyFloat.ninf
      | PyFloat.ninf => PyFloat.inf
      | PyFloat.nan => PyFloat.nan
  | _ => parseUnsignedFloat l

/-! ## Cell classification (`structure_detector.get_cell_type`) -/

/-- Match exactly `k` characters satisfying `p` at the head, returning the
rest. -/
def takeExact (p : Char → Bool) : ℕ → List Char → Option (List Char)
  | 0, l => some l
  | _ + 1, [] => Option.none
  | k + 1, c :: l => if p c then takeExact p k l else Option.none

/-- The slash-or-dash separator class of `get_cell_type`'s date patterns. -/
def isSlashDash (c : Char) : Bool := c = '/' || c = '-'

/-- Existence of a match of day-month-year shape digits(1..2) sep digits(1..2)
sep digits(2..4), sep a slash or dash, starting at the head of the input. -/
def matchDMYAt (l : List Char) : Bool :=
  [1, 2].any fun la =>
    match takeExact isDigitChar la l with
    | Option.none => false
    | some l₁ =>
      match l₁ with
      | c :: l₂ =>
        isSlashDash c &&
          ([1, 2].any fun lb =>
            match takeExact isDigitChar lb l₂ with
            | Option.none => false
            | some l₃ =>
              match l₃ with
              | d :: l₄ =>
                isSlashDash d &&
                  ([2, 3, 4].any fun lc => (takeExact isDigitChar lc l₄).isSome)
              | [] => false)
      | [] => false

/-- Existence of a match of year-month-day shape digits(4) sep digits(1..2) sep
digits(1..2), sep a slash or dash, starting at the head of the input. -/
def matchYMDAt (l : List Char) : Bool :=
  match takeExact isDigitChar 4 l with
  | Option.none => false
  | some l₁ =>
    match l₁ with
    | c :: l₂ =>
      isSlashDash c &&
        ([1, 2].any fun lb =>
          match takeExact isDigitChar lb l₂ with
          | Option.none => false
          | some l₃ =>
            match l₃ with
            | d :: l₄ =>
              isSlashDash d && ([1, 2].any fun lc => (takeExact isDigitChar lc l₄).isSome)
            | [] => false)
    | [] => false

/-- The unanchored `re.search` over the two date patterns of
`get_cell_type`. -/
def cellDateSearch (s : String) : Bool :=
  s.toList.tails.any fun t => matchDMYAt t || matchYMDAt t

/-- Translation of `StructureDetector.get_cell_type`: `'empty'` for `None`
or blank strings, `'number'` when `float(str(cell))` succeeds, `'date'` when
one of the two slash/dash date patterns occurs, else `'text'`. -/
def get_cell_type (c : Cell) : String :=
  if c = Cell.none || (isStrCell c && pyStrip (pyStr c) = "") then "empty"
  else if (pyFloatOfString (pyStr c)).isSome then "number"
  else if cellDateSearch (pyStr c) then "date"
  else "text"

/-! ## Structure detector (`Validator/structure_detector.py`)

Scores computed with Python floats are modelled as exact rationals; the
comparisons performed (`> 0.5`, `> 0.7`, `> max_score`) are between
small-denominator rationals where rational and IEEE-double comparison
agree. -/

/-- Configuration parameters read by `StructureDetector.__init__`
(`Validator/config.py` defaults: 20 / 20 / 0.3 / 0.7). -/
structure DetectorConfig where
  maxScanRows : ℕ
  maxScanCols : ℕ
  minDataDensity : ℚ
  headerConfidenceThreshold : ℚ
deriving DecidableEq, Repr

/-- Default configuration of `Validator/config.py`. -/
def defaultDetectorConfig : DetectorConfig := ⟨20, 20, 3/10, 7/10⟩

/-- Python `statistics.mean` (exact; `statistics.mean` computes the exact
rational mean internally before converting to float). Call sites guard
against the empty list exactly as the source does. -/
def listMean (xs : List ℚ) : ℚ := xs.sum / (xs.length : ℚ)

/-- The header-likeness vocabulary of `score_header_row`'s second and third
patterns, matched case-insensitively as substrings. -/
def headerVocab : List String :=
  ["name", "id", "date", "time", "value", "amount", "total", "count", "type",
   "status", "description", "category", "code", "number", "qty", "quantity", "price"]

/-- Whether a cell's string form matches one of the three header patterns of
`score_header_row`: starts with an ASCII capital, or contains one of the
vocabulary words case-insensitively. -/
def headerPatternMatch (s : String) : Bool :=
  (match s.toList with
   | c :: _ => isUpperChar c
   | [] => false) ||
  headerVocab.any (fun w => strContains (pyLower s) w)

/-- Translation of `calculate_type_difference`: the fraction of positions
(up to the shorter row) where the two cells' `get_cell_type` values differ
and neither is `'empty'`. -/
def calculate_type_difference (row1 row2 : List Cell) : ℚ :=
  if row1 = [] ∨ row2 = [] then 0
  else
    let minLen := min row1.length row2.length
    let differences := ((List.range minLen).filter fun i =>
      let t1 := get_cell_type (row1.getD i Cell.none)
      let t2 := get_cell_type (row2.getD i Cell.none)
      t1 ≠ t2 ∧ t1 ≠ "empty" ∧ t2 ≠ "empty").length
    if minLen > 0 then (differences : ℚ) / (minLen : ℚ) else 0

/-- Translation of `score_header_row`: the mean of (a) the fraction of
non-blank string cells, (b) the uniqueness ratio of non-empty cells, (c) the
fraction of non-empty cells matching a header pattern, (d) the type
difference against the first following row; (b)-(d) are appended only under
the source's guards. -/
def score_header_row (row : List Cell) (followingRows : List (List Cell)) : ℚ :=
  if row = [] then 0
  else
    let textCells := (row.filter fun c => c ≠ Cell.none && isStrCell c &&
      pyStrip (pyStr c) ≠ "").length
    let scores₀ : List ℚ := [(textCells : ℚ) / (row.length : ℚ)]
    let nonEmpty := row.filter cellHasData
    let scores₁ := if nonEmpty ≠ [] then
        scores₀ ++ [(((nonEmpty.map pyStr).dedup.length : ℚ) / (nonEmpty.length : ℚ))]
      else scores₀
    let patternMatches := (nonEmpty.filter fun c => headerPatternMatch (pyStr c)).length
    let scores₂ := if nonEmpty ≠ [] then
        scores₁ ++ [((patternMatches : ℚ) / (nonEmpty.length : ℚ))]
      else scores₁
    let scores₃ := match followingRows with
      | [] => scores₂
      | r :: _ => scores₂ ++ [calculate_type_difference row r]
    if scores₃ ≠ [] then listMean scores₃ else 0

/-- Translation of `calculate_row_consistency`: the fraction of expected
column indices populated in the row. -/
def calculate_row_consistency (row : List Cell) (expectedCols : List ℕ) : ℚ :=
  if row = [] ∨ expectedCols = [] then 0
  else
    let filled := (expectedCols.filter fun col =>
      match row.get? col with
      | some c => cellHasData c
      | Option.none => false).length
    (filled : ℚ) / (expectedCols.length : ℚ)

/-- Translation of `find_header_row`: scan the first
`min(max_scan_rows, len(data))` rows, keeping the first row whose score
strictly exceeds both the running maximum (initially 0) and the
configuration threshold. -/
def find_header_row (cfg : DetectorConfig) (data : Grid) : Option ℕ :=
  ((List.range (min cfg.maxScanRows data.length)).foldl
    (fun (acc : ℚ × Option ℕ) i =>
      let score := score_header_row (data.getD i []) (data.drop (i + 1))
      if score > acc.1 ∧ score > cfg.headerConfidenceThreshold then (score, some i)
      else acc)
    (0, Option.none)).2

/-- Result dictionary of `check_table_structure`; `header_index` and
`data_start_index` are present only on success, mirrored with `Option`. -/
structure TableCheck where
  is_table : Bool
  confidence : ℚ
  header_index : Option ℕ
  data_start_index : Option ℕ
deriving DecidableEq, Repr

/-- Translation of `check_table_structure`. -/
def check_table_structure (cfg : DetectorConfig) (data : Grid) : TableCheck :=
  if data = [] ∨ data.length < 2 then ⟨false, 0, Option.none, Option.none⟩
  else
    match find_header_row cfg data with
    | Option.none => ⟨false, 0, Option.none, Option.none⟩
    | some hi =>
      let headerRow := data.getD hi []
      let nonEmptyCols := (List.range headerRow.length).filter fun i =>
        cellHasData (headerRow.getD i Cell.none)
      if nonEmptyCols.length < 2 then ⟨false, 0, Option.none, Option.none⟩
      else
        let dataRows := data.drop (hi + 1)
        if dataRows = [] then ⟨false, 0, Option.none, Option.none⟩
        else
          let consistencyScores := (dataRows.take 10).map
            (fun r => calculate_row_consistency r nonEmptyCols)
          if consistencyScores ≠ [] then
            let avg := listMean consistencyScores
            ⟨avg > 1/2, avg, some hi, some (hi + 1)⟩
          else ⟨false, 0, Option.none, Option.none⟩

/-- Translation of `check_column_kv_pattern`: at least two even indices
`i < len - 1` whose (string) cell is non-blank and either ends with a colon
or contains one of the key words. -/
def check_column_kv_pattern (colData : List Cell) : Bool :=
  if colData.length < 2 then false
  else
    let potentialKeys := (List.range colData.length).filter fun i =>
      i % 2 = 0 ∧ i < colData.length - 1 ∧
      (let c := colData.getD i Cell.none
       c ≠ Cell.none ∧ isStrCell c ∧
       (let keyStr := pyStrip (pyStr c)
        keyStr ≠ "" ∧
        (pyEndsWith keyStr ":" ∨
         (["name", "id", "date", "value", "type"].any fun w =>
           strContains (pyLower keyStr) w))))
    potentialKeys.length ≥ 2

/-- Result of `check_key_value_structure`. -/
structure KvCheck where
  is_key_value : Bool
  confidence : ℚ
deriving DecidableEq, Repr

/-- Translation of `check_key_value_structure`: horizontal evidence is one
entry per scanned row of length ≥ 2 whose first cell is a colon-bearing
string label or differs from its non-`None` right neighbour; vertical
evidence is one entry per scanned column (up to the shortest row length)
showing an alternating key pattern. Confidence is
`min(1, patterns / (rows + len(first row)))`. -/
def check_key_value_structure (cfg : DetectorConfig) (data : Grid) : KvCheck :=
  if data = [] then ⟨false, 0⟩
  else
    let hCount := ((data.take cfg.maxScanRows).filter fun row =>
      row.length ≥ 2 ∧
      (let r0 := row.getD 0 Cell.none
       let r1 := row.getD 1 Cell.none
       (r0 ≠ Cell.none ∧ isStrCell r0 ∧ pyStrip (pyStr r0) ≠ "" ∧
        strContains (pyStr r0) ":") ∨
       (r1 ≠ Cell.none ∧ r0 ≠ r1))).length
    let minRowLen := ((data.map List.length).min?).getD 0
    let vCount := if data.length ≥ 2 then
        ((List.range (min cfg.maxScanCols minRowLen)).filter fun j =>
          check_column_kv_pattern (data.map fun row => row.getD j Cell.none)).length
      else 0
    let total := hCount + vCount
    if total > 0 then
      let confidence := (total : ℚ) / ((data.length : ℚ) + ((data.getD 0 []).length : ℚ))
      ⟨true, min confidence 1⟩
    else ⟨false, 0⟩

/-! ### Region discovery (`find_data_regions` / `expand_region`) -/

/-- Entry `(i, j)` of the boolean data matrix built by `find_data_regions`:
the cell exists and holds data. -/
def gridHasData (data : Grid) (i j : ℕ) : Bool :=
  match data.get? i with
  | some row =>
    match row.get? j with
    | some c => cellHasData c
    | Option.none => false
  | Option.none => false

/-- A connected region as returned by `expand_region`. -/
structure Region where
  min_row : ℕ
  max_row : ℕ
  min_col : ℕ
  max_col : ℕ
  area : ℕ
  cells : List (ℕ × ℕ)
deriving DecidableEq, Repr

/-- State of the flood-fill loop of `expand_region`: the globally shared
visited set, the DFS stack (top at the head, matching `list.append`/`pop`),
the popped cells in pop order, and the running bounding box. -/
structure FloodState where
  visited : List (ℕ × ℕ)
  stack : List (ℕ × ℕ)
  cells : List (ℕ × ℕ)
  minRow : ℕ
  maxRow : ℕ
  minCol : ℕ
  maxCol : ℕ
deriving Repr

/-- The neighbour offsets `[(0, 1), (1, 0), (0, -1), (-1, 0)]`. -/
def neighborOffsets : List (ℤ × ℤ) := [(0, 1), (1, 0), (0, -1), (-1, 0)]

/-- One neighbour test of the flood fill: in bounds, data present, not yet
visited — then mark visited, push, and extend the bounding box. -/
def tryPush (m : ℕ → ℕ → Bool) (rows cols : ℕ) (st : FloodState)
    (rc : ℤ × ℤ) : FloodState :=
  if 0 ≤ rc.1 ∧ rc.1 < (rows : ℤ) ∧ 0 ≤ rc.2 ∧ rc.2 < (cols : ℤ) then
    let p : ℕ × ℕ := (rc.1.toNat, rc.2.toNat)
    if m p.1 p.2 ∧ p ∉ st.visited then
      ⟨p :: st.visited, p :: st.stack, st.cells,
       min st.minRow p.1, max st.maxRow p.1, min st.minCol p.2, max st.maxCol p.2⟩
    else st
  else st

/-- The `while stack:` loop of `expand_region`, fuelled. Each iteration pops
one cell and pushes its eligible neighbours; the measure
`2·(unvisited data cells) + stack length` strictly decreases each iteration,
so `2·rows·cols + 1` fuel (the value passed by `expandRegion`) always
suffices to drain the stack. -/
def floodLoop (m : ℕ → ℕ → Bool) (rows cols : ℕ) : ℕ → FloodState → FloodState
  | 0, st => st
  | fuel + 1, st =>
    match st.stack with
    | [] => st
    | (r, c) :: rest =>
      let st₁ : FloodState := { st with stack := rest, cells := st.cells ++ [(r, c)] }
      let st₂ := neighborOffsets.foldl
        (fun s d => tryPush m rows cols s ((r : ℤ) + d.1, (c : ℤ) + d.2)) st₁
      floodLoop m rows cols fuel st₂

/-- Translation of `expand_region`: flood fill from a start cell, returning
the region and the updated shared visited set. -/
def expand_region (m : ℕ → ℕ → Bool) (rows cols sr sc : ℕ)
    (visited : List (ℕ × ℕ)) : Region × List (ℕ × ℕ) :=
  let st₀ : FloodState := ⟨(sr, sc) :: visited, [(sr, sc)], [], sr, sr, sc, sc⟩
  let st := floodLoop m rows cols (2 * rows * cols + 1) st₀
  (⟨st.minRow, st.maxRow, st.minCol, st.maxCol, st.cells.length, st.cells⟩, st.visited)

/-- Maximum row length of a grid (`max(len(row) for row in data)`). -/
def maxRowLen (data : Grid) : ℕ := (data.map List.length).foldl max 0

/-- Translation of `find_data_regions`: row-major scan starting a flood
fill at every unvisited data cell, keeping regions of area greater than 1. -/
def find_data_regions (data : Grid) : List Region :=
  if data = [] then []
  else
    let rows := data.length
    let cols := maxRowLen data
    let m := gridHasData data
    let scan := (List.range rows).flatMap fun i => (List.range cols).map fun j => (i, j)
    ((scan.foldl
      (fun (acc : List Region × List (ℕ × ℕ)) p =>
        if m p.1 p.2 ∧ p ∉ acc.2 then
          let res := expand_region m rows cols p.1 p.2 acc.2
          (if res.1.area > 1 then acc.1 ++ [res.1] else acc.1, res.2)
        else acc)
      ([], []))).1

/-! ### Region analysis and the sheet-level decision -/

/-- Result of `analyze_region`: a region type tag with confidence and, for
tables, the absolute header and data-start rows. -/
structure RegionType where
  rtype : String
  confidence : ℚ
  header_row : Option ℕ
  data_start_row : Option ℕ
deriving DecidableEq, Repr

/-- The sub-grid of a region's bounding box as extracted by
`analyze_region` (rows clipped to the grid, columns clipped to each row). -/
def regionSubgrid (data : Grid) (reg : Region) : Grid :=
  (List.range' reg.min_row (min (reg.max_row + 1) data.length - reg.min_row)).map fun i =>
    let rowi := data.getD i []
    (List.range' reg.min_col (min (reg.max_col + 1) rowi.length - reg.min_col)).map fun j =>
      rowi.getD j Cell.none

/-- Translation of `analyze_region`: try the table test, then the key-value
test, else unknown. -/
def analyze_region (cfg : DetectorConfig) (data : Grid) (reg : Region) : RegionType :=
  let rd := regionSubgrid data reg
  let tc := check_table_structure cfg rd
  if tc.is_table then
    ⟨"table", tc.confidence, some (reg.min_row + tc.header_index.getD 0),
     some (reg.min_row + tc.data_start_index.getD 1)⟩
  else
    let kv := check_key_value_structure cfg rd
    if kv.is_key_value then ⟨"key_value", kv.confidence, Option.none, Option.none⟩
    else ⟨"unknown", 0, Option.none, Option.none⟩

/-- The analysis dictionary built by `analyze_data_patterns`. -/
structure Analysis where
  has_table_structure : Bool
  has_key_value_pairs : Bool
  mixed_structure : Bool
  table_confidence : ℚ
  kv_confidence : ℚ
  overall_confidence : ℚ
  table_bounds : Option Region
  header_row : Option ℕ
  data_start_row : Option ℕ
  key_value_regions : List Region
  regions : List Region
deriving DecidableEq, Repr

/-- One region step of `analyze_data_patterns`' loop. -/
def analysisStep (cfg : DetectorConfig) (data : Grid) (a : Analysis)
    (reg : Region) : Analysis :=
  let rt := analyze_region cfg data reg
  if rt.rtype = "table" then
    let a₁ := { a with has_table_structure := true,
                       table_confidence := max a.table_confidence rt.confidence }
    if a₁.table_bounds = Option.none then
      { a₁ with table_bounds := some reg, header_row := rt.header_row,
                data_start_row := rt.data_start_row }
    else a₁
  else if rt.rtype = "key_value" then
    { a with has_key_value_pairs := true,
             kv_confidence := max a.kv_confidence rt.confidence,
             key_value_regions := a.key_value_regions ++ [reg] }
  else a

/-- Translation of `analyze_data_patterns`. -/
def analyze_data_patterns (cfg : DetectorConfig) (data : Grid) : Analysis :=
  let regions := find_data_regions data
  let init : Analysis :=
    ⟨false, false, false, 0, 0, 0, Option.none, Option.none, Option.none, [], regions⟩
  if regions = [] then init
  else
    let a := regions.foldl (analysisStep cfg data) init
    if a.has_table_structure ∧ a.has_key_value_pairs then
      { a with mixed_structure := true,
               overall_confidence := (a.table_confidence + a.kv_confidence) / 2 }
    else
      { a with overall_confidence := max a.table_confidence a.kv_confidence }

/-- The result dictionary of `detect_structure`; one constructor per return
shape (the `empty` and `unknown` shapes carry the fixed confidences 1.0 and
0.0). -/
inductive Decision where
  | empty
  | structured (confidence : ℚ) (tableBounds : Option Region)
      (headerRow : Option ℕ) (dataStartRow : Option ℕ)
  | unstructured (confidence : ℚ) (keyValueRegions : List Region)
  | semiStructured (confidence : ℚ) (regions : List Region)
  | unknown
deriving DecidableEq, Repr

/-- The `type` string of a decision dictionary. -/
def Decision.typeName : Decision → String
  | Decision.empty => "empty"
  | Decision.structured _ _ _ _ => "structured"
  | Decision.unstructured _ _ => "unstructured"
  | Decision.semiStructured _ _ => "semi_structured"
  | Decision.unknown => "unknown"

/-- The `confidence` entry of a decision dictionary. -/
def Decision.confidence : Decision → ℚ
  | Decision.empty => 1
  | Decision.structured c _ _ _ => c
  | Decision.unstructured c _ => c
  | Decision.semiStructured c _ => c
  | Decision.unknown => 0

/-- The `table_bounds` entry (present only on `structured`). -/
def Decision.tableBounds : Decision → Option Region
  | Decision.structured _ tb _ _ => tb
  | _ => Option.none

/-- The `header_row` entry (present only on `structured`). -/
def Decision.headerRow : Decision → Option ℕ
  | Decision.structured _ _ hr _ => hr
  | _ => Option.none

/-- The `data_start_row` entry (present only on `structured`). -/
def Decision.dataStartRow : Decision → Option ℕ
  | Decision.structured _ _ _ ds => ds
  | _ => Option.none

/-- Translation of `detect_structure` (the sheet's cell grid plays the role
of `sheet_data["data"]`). -/
def detect_structure (cfg : DetectorConfig) (data : Grid) : Decision :=
  if data = [] then Decision.empty
  else
    let a := analyze_data_patterns cfg data
    if a.has_table_structure then
      Decision.structured a.table_confidence a.table_bounds a.header_row a.data_start_row
    else if a.has_key_value_pairs then
      Decision.unstructured a.kv_confidence a.key_value_regions
    else if a.mixed_structure then
      Decision.semiStructured a.overall_confidence a.regions
    else Decision.unknown

/-- Extracted table: header cells and data rows
(`extract_table`'s result). -/
structure TableData where
  columns : List Cell
  data : List (List Cell)
deriving DecidableEq, Repr

/-- Translation of `extract_table`: slice headers from the header row and
data rows from `data_start_row` to the bottom of the bounds, padding short
rows with `None`. -/
def extract_table (data : Grid) (d : Decision) : TableData :=
  match d.tableBounds with
  | Option.none => ⟨[], []⟩
  | some bounds =>
    let headerRow := (d.headerRow).getD bounds.min_row
    let dataStart := (d.dataStartRow).getD (headerRow + 1)
    let headers :=
      if headerRow < data.length then
        let hd := data.getD headerRow []
        (List.range' bounds.min_col
          (min (bounds.max_col + 1) hd.length - bounds.min_col)).map fun col =>
            if col < hd.length then hd.getD col Cell.none
            else Cell.str ("Column_" ++ toString col)
      else []
    let tableData :=
      (List.range' dataStart (min (bounds.max_row + 1) data.length - dataStart)).map
        fun rowIdx =>
          let rowi := data.getD rowIdx []
          (List.range' bounds.min_col (bounds.max_col + 1 - bounds.min_col)).map
            fun colIdx =>
              if colIdx < rowi.length then rowi.getD colIdx Cell.none else Cell.none
    ⟨headers, tableData⟩

/-! ## Date-time detector (`Validator/date_time_detector.py`)

`parse_date` cascades: pandas `to_datetime` → `dateutil` fuzzy parsing →
the custom regex patterns → the Excel-serial heuristic. The first two stages
are third-party library code outside this repository and are modelled by
`externalDateParse`; the custom patterns and the serial fallback are
translated from the source. All patterns are matched with `re.IGNORECASE`
and `re.search` semantics (leftmost match, greedy quantifiers, word
boundaries). -/

/-- A Python `datetime.datetime` value (naive). -/
structure PyDateTime where
  year : ℕ
  month : ℕ
  day : ℕ
  hour : ℕ
  minute : ℕ
  second : ℕ
deriving DecidableEq, Repr

/-- Gregorian leap year, as `calendar`/`datetime` use. -/
def isLeapYear (y : ℕ) : Bool := y % 4 = 0 && (y % 100 ≠ 0 || y % 400 = 0)

/-- Days in a month (`calendar.monthrange(y, m)[1]`), defined for
`1 ≤ m ≤ 12`. -/
def daysInMonth (y m : ℕ) : ℕ :=
  if m = 2 then (if isLeapYear y then 29 else 28)
  else if m = 4 ∨ m = 6 ∨ m = 9 ∨ m = 11 then 30
  else 31

/-- Validity of arguments to `datetime.datetime(...)` (a `ValueError` is
raised otherwise). -/
def validDateTime (y mo d h mi s : ℕ) : Bool :=
  1 ≤ y ∧ y ≤ 9999 ∧ 1 ≤ mo ∧ mo ≤ 12 ∧ 1 ≤ d ∧ d ≤ daysInMonth y mo ∧
  h ≤ 23 ∧ mi ≤ 59 ∧ s ≤ 59

/-- Match exactly `k` characters satisfying `p`, returning them and the
rest. -/
def takeRun (p : Char → Bool) : ℕ → List Char → Option (List Char × List Char)
  | 0, l => some ([], l)
  | _ + 1, [] => Option.none
  | k + 1, c :: l =>
    if p c then (takeRun p k l).map (fun gr => (c :: gr.1, gr.2)) else Option.none

/-- Word boundary before a word character: start of string or a non-word
predecessor. -/
def boundaryBefore (prev : Option Char) : Bool :=
  match prev with
  | some p => !isWordChar p
  | Option.none => true

/-- Word boundary after a word character: end of string or a non-word
successor. -/
def boundaryAfterWord (rest : List Char) : Bool :=
  match rest with
  | [] => true
  | c :: _ => !isWordChar c

/-- Run an at-position matcher (which sees the previous character, for word
boundaries) at every position left to right: `re.search`. -/
def searchPrevAux (pat : Option Char → List Char → Option α) :
    Option Char → List Char → Option α
  | prev, [] => pat prev []
  | prev, c :: t =>
    match pat prev (c :: t) with
    | some r => some r
    | Option.none => searchPrevAux pat (some c) t

/-- `re.search` over a whole character list. -/
def regexSearch (pat : Option Char → List Char → Option α) (l : List Char) :
    Option α :=
  searchPrevAux pat Option.none l

/-- Separator class of the numeric date patterns: dash, slash, underscore or
whitespace. -/
def sepDMY (c : Char) : Bool := c = '-' || c = '/' || c = '_' || isSpaceChar c

/-- Separator class dash-or-space. -/
def sepDashSpace (c : Char) : Bool := c = '-' || isSpaceChar c

/-- Separator class dash, slash or underscore. -/
def sepDSU (c : Char) : Bool := c = '-' || c = '/' || c = '_'

/-- Greedy length choices, longest first. -/
def greedyLens (lo hi : ℕ) : List ℕ := ((List.range' lo (hi + 1 - lo)).reverse)

/-- Matcher for the three-number date patterns
`\b(\d..)(sep)(\d..)(sep)(\d..)\b` with given greedy length choices. -/
def matchNum3 (sep : Char → Bool) (l1s l2s l3s : List ℕ)
    (prev : Option Char) (l : List Char) : Option (List (Option String)) :=
  if !boundaryBefore prev then Option.none
  else
    l1s.findSome? fun a => (takeRun isDigitChar a l).bind fun g1 =>
      match g1.2 with
      | s1 :: r2 =>
        if sep s1 then
          l2s.findSome? fun b => (takeRun isDigitChar b r2).bind fun g2 =>
            match g2.2 with
            | s2 :: r4 =>
              if sep s2 then
                l3s.findSome? fun c => (takeRun isDigitChar c r4).bind fun g3 =>
                  if boundaryAfterWord g3.2 then
                    some [some (String.mk g1.1), some (String.mk g2.1),
                          some (String.mk g3.1)]
                  else Option.none
              else Option.none
            | [] => Option.none
        else Option.none
      | [] => Option.none

/-- Matcher for `\b(\d{1,2})[-\s]([A-Za-z]{3,9})[-\s](\d{2,4})\b`
(day, month name, year). -/
def matchDMonY (prev : Option Char) (l : List Char) : Option (List (Option String)) :=
  if !boundaryBefore prev then Option.none
  else
    [2, 1].findSome? fun a => (takeRun isDigitChar a l).bind fun g1 =>
      match g1.2 with
      | s1 :: r2 =>
        if sepDashSpace s1 then
          (greedyLens 3 9).findSome? fun b => (takeRun isAlphaChar b r2).bind fun g2 =>
            match g2.2 with
            | s2 :: r4 =>
              if sepDashSpace s2 then
                [4, 3, 2].findSome? fun c => (takeRun isDigitChar c r4).bind fun g3 =>
                  if boundaryAfterWord g3.2 then
                    some [some (String.mk g1.1), some (String.mk g2.1),
                          some (String.mk g3.1)]
                  else Option.none
              else Option.none
            | [] => Option.none
        else Option.none
      | [] => Option.none

/-- Matcher for `\b([A-Za-z]{3,9})[-\s](\d{1,2}),?\s*(\d{2,4})\b`
(month name, day, year). The optional comma and the whitespace run are
consumed greedily; because comma and whitespace cannot begin the digit group
that follows, the greedy choice is the only one that can succeed. -/
def matchMonDY (prev : Option Char) (l : List Char) : Option (List (Option String)) :=
  if !boundaryBefore prev then Option.none
  else
    (greedyLens 3 9).findSome? fun a => (takeRun isAlphaChar a l).bind fun g1 =>
      match g1.2 with
      | s1 :: r2 =>
        if sepDashSpace s1 then
          [2, 1].findSome? fun b => (takeRun isDigitChar b r2).bind fun g2 =>
            let r3 := match g2.2 with
              | ',' :: t => t
              | _ => g2.2
            let r3' := r3.dropWhile isSpaceChar
            [4, 3, 2].findSome? fun c => (takeRun isDigitChar c r3').bind fun g3 =>
              if boundaryAfterWord g3.2 then
                some [some (String.mk g1.1), some (String.mk g2.1),
                      some (String.mk g3.1)]
              else Option.none
          else Option.none
      | [] => Option.none

/-- Matcher for `\b(\d{1,2})\s+([A-Za-z]{3,9})\s+(\d{2,4})\b`
(day month-name year with mandatory whitespace). -/
def matchDSpMonY (prev : Option Char) (l : List Char) : Option (List (Option String)) :=
  if !boundaryBefore prev then Option.none
  else
    [2, 1].findSome? fun a => (takeRun isDigitChar a l).bind fun g1 =>
      match g1.2 with
      | s1 :: r2 =>
        if isSpaceChar s1 then
          let r2' := r2.dropWhile isSpaceChar
          (greedyLens 3 9).findSome? fun b => (takeRun isAlphaChar b r2').bind fun g2 =>
            match g2.2 with
            | s2 :: r4 =>
              if isSpaceChar s2 then
                let r4' := r4.dropWhile isSpaceChar
                [4, 3, 2].findSome? fun c => (takeRun isDigitChar c r4').bind fun g3 =>
                  if boundaryAfterWord g3.2 then
                    some [some (String.mk g1.1), some (String.mk g2.1),
                          some (String.mk g3.1)]
                  else Option.none
              else Option.none
            | [] => Option.none
        else Option.none
      | [] => Option.none

/-- Matcher for `\b(\d{4})(\d{2})(\d{2})\b` (compact ISO). -/
def matchCompact (prev : Option Char) (l : List Char) : Option (List (Option String)) :=
  if !boundaryBefore prev then Option.none
  else
    (takeRun isDigitChar 4 l).bind fun g1 =>
      (takeRun isDigitChar 2 g1.2).bind fun g2 =>
        (takeRun isDigitChar 2 g2.2).bind fun g3 =>
          if boundaryAfterWord g3.2 then
            some [some (String.mk g1.1), some (String.mk g2.1), some (String.mk g3.1)]
          else Option.none

/-- A quarter digit `[1-4]`. -/
def isQuarterDigit (c : Char) : Bool := '1' ≤ c && c ≤ '4'

/-- Matcher for `\b[Q]([1-4])[-\s]?(\d{2,4})\b` (case-insensitive `Q`). -/
def matchQY (prev : Option Char) (l : List Char) : Option (List (Option String)) :=
  if !boundaryBefore prev then Option.none
  else
    match l with
    | q :: d :: r =>
      if (q = 'Q' || q = 'q') && isQuarterDigit d then
        let r' := match r with
          | s :: t => if sepDashSpace s then t else r
          | [] => r
        [4, 3, 2].findSome? fun c => (takeRun isDigitChar c r').bind fun g2 =>
          if boundaryAfterWord g2.2 then
            some [some (String.mk [d]), some (String.mk g2.1)]
          else Option.none
      else Option.none
    | _ => Option.none

/-- Matcher for `\b(\d{2,4})[-\s]?[Q]([1-4])\b` (case-insensitive `Q`). -/
def matchYQ (prev : Option Char) (l : List Char) : Option (List (Option String)) :=
  if !boundaryBefore prev then Option.none
  else
    [4, 3, 2].findSome? fun a => (takeRun isDigitChar a l).bind fun g1 =>
      let r' := match g1.2 with
        | s :: t => if sepDashSpace s then t else g1.2
        | [] => g1.2
      match r' with
      | q :: d :: rest =>
        if (q = 'Q' || q = 'q') && isQuarterDigit d && boundaryAfterWord rest then
          some [some (String.mk g1.1), some (String.mk [d])]
        else Option.none
      | _ => Option.none

/-- Matcher for `\b([A-Za-z]{3,9})[-\s](\d{2,4})\b` (month-name year). -/
def matchMonY (prev : Option Char) (l : List Char) : Option (List (Option String)) :=
  if !boundaryBefore prev then Option.none
  else
    (greedyLens 3 9).findSome? fun a => (takeRun isAlphaChar a l).bind fun g1 =>
      match g1.2 with
      | s1 :: r2 =>
        if sepDashSpace s1 then
          [4, 3, 2].findSome? fun b => (takeRun isDigitChar b r2).bind fun g2 =>
            if boundaryAfterWord g2.2 then
              some [some (String.mk g1.1), some (String.mk g2.1)]
            else Option.none
        else Option.none
      | [] => Option.none

/-- Matcher of the month-year pattern: digits(1..2), a dash, slash or
underscore separator, digits(2..4), all word-bounded. -/
def matchMY (prev : Option Char) (l : List Char) : Option (List (Option String)) :=
  if !boundaryBefore prev then Option.none
  else
    [2, 1].findSome? fun a => (takeRun isDigitChar a l).bind fun g1 =>
      match g1.2 with
      | s1 :: r2 =>
        if sepDSU s1 then
          [4, 3, 2].findSome? fun b => (takeRun isDigitChar b r2).bind fun g2 =>
            if boundaryAfterWord g2.2 then
              some [some (String.mk g1.1), some (String.mk g2.1)]
            else Option.none
        else Option.none
      | [] => Option.none

/-- Matcher of an AM/PM token (case-insensitive). -/
def takeAmPm : List Char → Option (String × List Char)
  | a :: m :: rest =>
    if (a = 'A' || a = 'a' || a = 'P' || a = 'p') && (m = 'M' || m = 'm') then
      some (String.mk [a, m], rest)
    else Option.none
  | _ => Option.none

/-- The tail `\s*([AP]M)?\b` of the time pattern after a digit: try each
whitespace-run length greedily, inside each first with then without the
AM/PM group, applying the correct word-boundary rule for the last consumed
character. -/
def timeTail (r : List Char) : Option (Option String) :=
  let maxRun := (r.takeWhile isSpaceChar).length
  ((List.range (maxRun + 1)).reverse).findSome? fun k =>
    let rest := r.drop k
    match takeAmPm rest with
    | some am =>
      if boundaryAfterWord am.2 then some (some am.1)
      else
        if k > 0 then
          (match rest with
           | c :: _ => if isWordChar c then some Option.none else Option.none
           | [] => Option.none)
        else if boundaryAfterWord rest then some Option.none
        else Option.none
    | Option.none =>
      if k > 0 then
        (match rest with
         | c :: _ => if isWordChar c then some Option.none else Option.none
         | [] => Option.none)
      else if boundaryAfterWord rest then some Option.none
      else Option.none

/-- Matcher for `\b(\d{1,2}):(\d{2})(?::(\d{2}))?\s*([AP]M)?\b` (time). -/
def matchTime (prev : Option Char) (l : List Char) : Option (List (Option String)) :=
  if !boundaryBefore prev then Option.none
  else
    [2, 1].findSome? fun a => (takeRun isDigitChar a l).bind fun g1 =>
      match g1.2 with
      | ':' :: r2 =>
        (takeRun isDigitChar 2 r2).bind fun g2 =>
          let withSecond : Option (List (Option String)) :=
            match g2.2 with
            | ':' :: r3 =>
              (takeRun isDigitChar 2 r3).bind fun g3 =>
                (timeTail g3.2).map fun am =>
                  [some (String.mk g1.1), some (String.mk g2.1),
                   some (String.mk g3.1), am]
            | _ => Option.none
          match withSecond with
          | some gs => some gs
          | Option.none =>
            (timeTail g2.2).map fun am =>
              [some (String.mk g1.1), some (String.mk g2.1), Option.none, am]
      | _ => Option.none

/-- The month-name dictionary of `DateTimeDetector`, looked up on the first
three lower-cased characters of the matched name. -/
def monthNames : List (String × ℕ) :=
  [("jan", 1), ("january", 1), ("feb", 2), ("february", 2), ("mar", 3),
   ("march", 3), ("apr", 4), ("april", 4), ("may", 5), ("jun", 6),
   ("june", 6), ("jul", 7), ("july", 7), ("aug", 8), ("august", 8),
   ("sep", 9), ("september", 9), ("oct", 10), ("october", 10), ("nov", 11),
   ("november", 11), ("dec", 12), ("december", 12)]

/-- Lookup of `month_names.get(value.lower()[:3])`. -/
def monthNum (s : String) : Option ℕ :=
  (monthNames.lookup (String.mk ((pyLower s).toList.take 3))).map id

/-- Python `int(...)` on the digit strings captured by the patterns. -/
def pyIntOfDigits (s : String) : ℕ := digitsToNat s.toList

/-- The mutable `date_parts` dictionary of `construct_date_from_match`
(`year`/`month`/`day` start as `None`, the time fields as 0; Python
truthiness makes both `None` and 0 falsy). -/
structure DateParts where
  year : Option ℕ
  month : Option ℕ
  day : Option ℕ
  hour : ℕ
  minute : ℕ
  second : ℕ
deriving Repr

/-- Python truthiness of an optional integer part. -/
def partTruthy : Option ℕ → Bool
  | some n => n ≠ 0
  | Option.none => false

/-- One component assignment of `construct_date_from_match`'s loop. -/
def datePartStep (p : DateParts) (component : String) (v : String) : DateParts :=
  if component = "y" then
    let y := pyIntOfDigits v
    let y' := if y < 100 then (if y < 50 then 2000 + y else 1900 + y) else y
    { p with year := some y' }
  else if component = "m" then { p with month := some (pyIntOfDigits v) }
  else if component = "d" then { p with day := some (pyIntOfDigits v) }
  else if component = "month_name" then
    match monthNum v with
    | some mn => { p with month := some mn }
    | Option.none => p
  else if component = "quarter" then
    let q := pyIntOfDigits v
    { p with month := some ((q - 1) * 3 + 2), day := some 1 }
  else if component = "hour" then { p with hour := pyIntOfDigits v }
  else if component = "minute" then { p with minute := pyIntOfDigits v }
  else if component = "second" then { p with second := pyIntOfDigits v }
  else if component = "ampm" ∧ p.hour ≠ 0 then
    if pyUpper v = "PM" ∧ p.hour < 12 then { p with hour := p.hour + 12 }
    else if pyUpper v = "AM" ∧ p.hour = 12 then { p with hour := 0 }
    else p
  else p

/-- Translation of `construct_date_from_match`: fill the parts from the
captured groups, then build a `datetime`, clamping a too-large day to the
month's length as the source's `ValueError` recovery does. A `None` result
models both the `return None` path and an uncaught exception (the caller
treats them identically: try the next pattern). -/
def constructDateFromMatch (groups : List (Option String))
    (components : List String) : Option PyDateTime :=
  let parts := (components.enum).foldl
    (fun (p : DateParts) ci =>
      match groups.getD ci.1 Option.none with
      | some v => datePartStep p ci.2 v
      | Option.none => p)
    ⟨Option.none, Option.none, Option.none, 0, 0, 0⟩
  if partTruthy parts.year ∧ partTruthy parts.month then
    let d := if partTruthy parts.day then parts.day.getD 1 else 1
    let y := parts.year.getD 0
    let mo := parts.month.getD 0
    if validDateTime y mo d parts.hour parts.minute parts.second then
      some ⟨y, mo, d, parts.hour, parts.minute, parts.second⟩
    else if d > 28 then
      if 1 ≤ mo ∧ mo ≤ 12 ∧ 1 ≤ y ∧ y ≤ 9999 then
        let d' := min d (daysInMonth y mo)
        if validDateTime y mo d' parts.hour parts.minute parts.second then
          some ⟨y, mo, d', parts.hour, parts.minute, parts.second⟩
        else Option.none
      else Option.none
    else Option.none
  else Option.none

/-- The ordered custom pattern list of `DateTimeDetector.date_patterns`. -/
def customDatePatterns :
    List ((Option Char → List Char → Option (List (Option String))) × List String) :=
  [(matchNum3 sepDMY [2, 1] [2, 1] [4, 3, 2], ["d", "m", "y"]),
   (matchNum3 sepDMY [2, 1] [2, 1] [4, 3, 2], ["m", "d", "y"]),
   (matchNum3 sepDMY [4] [2, 1] [2, 1], ["y", "m", "d"]),
   (matchNum3 sepDMY [4, 3, 2] [2, 1] [2, 1], ["y", "m", "d"]),
   (matchDMonY, ["d", "month_name", "y"]),
   (matchMonDY, ["month_name", "d", "y"]),
   (matchDSpMonY, ["d", "month_name", "y"]),
   (matchCompact, ["y", "m", "d"]),
   (matchQY, ["quarter", "y"]),
   (matchYQ, ["y", "quarter"]),
   (matchMonY, ["month_name", "y"]),
   (matchMY, ["m", "y"]),
   (matchTime, ["hour", "minute", "second", "ampm"])]

/-- The custom-pattern stage of `parse_date`: first pattern whose search
finds a match and whose construction succeeds. -/
def customDateParse (s : String) : Option PyDateTime :=
  customDatePatterns.findSome? fun pm =>
    match regexSearch pm.1 s.toList with
    | some groups => constructDateFromMatch groups pm.2
    | Option.none => Option.none

/-- Days in a year. -/
def daysInYear (y : ℕ) : ℕ := if isLeapYear y then 366 else 365

/-- Advance whole years from a base year while enough days remain. -/
def yearWalk : ℕ → ℕ → ℕ → ℕ × ℕ
  | 0, y, d => (y, d)
  | f + 1, y, d => if d ≥ daysInYear y then yearWalk f (y + 1) (d - daysInYear y) else (y, d)

/-- Advance whole months within a year while enough days remain. -/
def monthWalk : ℕ → ℕ → ℕ → ℕ → ℕ × ℕ
  | 0, _, m, d => (m, d)
  | f + 1, y, m, d =>
    if m < 12 ∧ d ≥ daysInMonth y m then monthWalk f y (m + 1) (d - daysInMonth y m)
    else (m, d)

/-- Translation of `excel_serial_to_datetime`:
`datetime(1900, 1, 1) + Timedelta(days = serial - 1 or serial - 2)` (the
offset corrects Excel's fictitious 1900-02-29). Serials reaching this code
in the development are integral, so the sub-day component of the
`Timedelta` is zero and the time of day is 00:00:00. -/
def excelSerialToDatetime (serial : ℚ) : PyDateTime :=
  let delta : ℚ := if serial < 60 then serial - 1 else serial - 2
  let days : ℕ := (Int.floor delta).toNat
  let yr := yearWalk 600 1900 days
  let md := monthWalk 12 yr.1 1 yr.2
  ⟨yr.1, md.1, md.2 + 1, 0, 0, 0⟩

/-- Modelled from the spec: the `pd.to_datetime` and `dateutil` fuzzy
parsing stages of `parse_date` — third-party library code outside this
repository ("native datetime parser → permissive/fuzzy parser", §4.2).
Modelled as always failing. The theorems below depend on this stub's value
only on alphabetic identifier strings such as `"Acme"` (both real parsers
fail on them: no digits and no month-name token) and on plain digit strings
such as `"100"`, where the repository-owned Excel-serial stage succeeds
anyway, so the parse's overall success there does not depend on the stub. -/
def externalDateParse (_s : String) : Option PyDateTime := Option.none

/-- Translation of `DateTimeDetector.parse_date`. -/
def parse_date (v : Cell) : Option PyDateTime :=
  if v = Cell.none then Option.none
  else
    let valueStr := pyStrip (pyStr v)
    if valueStr = "" then Option.none
    else
      match externalDateParse valueStr with
      | some d => some d
      | Option.none =>
        match customDateParse valueStr with
        | some d => some d
        | Option.none =>
          match pyFloatOfString valueStr with
          | some (PyFloat.finite q) =>
            if 1 < q ∧ q < 100000 then some (excelSerialToDatetime q) else Option.none
          | _ => Option.none

/-- The column-name patterns of `date_column_patterns` (plain substring
searches plus three end-anchored patterns). -/
def isDateColumnName (name : String) : Bool :=
  let low := pyLower name
  (["date", "time", "datetime", "dt", "period", "month", "year", "quarter",
    "week", "day", "timestamp", "created", "updated", "modified", "effective",
    "expiry", "start", "end", "from", "to", "as_of", "asof", "reporting",
    "transaction", "trade", "settlement", "maturity", "issue", "dated",
    "cal_"].any fun w => strContains low w) ||
  pyEndsWith low "_dt" || pyEndsWith low "_date" || pyEndsWith low "_time"

/-- Translation of `DateTimeDetector.is_date_column`: column-name heuristic
first, then the fraction of the first 20 sample values that parse as
dates. -/
def is_date_column (columnName : String) (sampleData : List Cell) : Bool :=
  if isDateColumnName columnName then true
  else if sampleData ≠ [] then
    let dateCount := ((sampleData.take 20).filter fun v => (parse_date v).isSome).length
    (dateCount : ℚ) / ((min 20 sampleData.length : ℕ) : ℚ) > 1/2
  else false

/-! ## Data cleaner (`Validator/data_cleaner.py`)

The cleaner is modelled at its default configuration
(`trim_whitespace = True`, `standardize_dates = True`,
`remove_duplicates = False`, `infer_data_types = True`,
`replace_missing_with = None`), the configuration every claim speaks
about. A pandas `DataFrame` is an association list of column name to
column values in column order; `NaN` is `Cell.none`. -/

/-- Collapse every maximal run of whitespace/underscore characters to a
single underscore (`re.sub(r'[\s_]+', '_', ...)`). -/
def collapseWSUnderscore : List Char → List Char
  | [] => []
  | [c] => if isSpaceChar c || c = '_' then ['_'] else [c]
  | c :: c' :: t =>
    if isSpaceChar c || c = '_' then
      if isSpaceChar c' || c' = '_' then collapseWSUnderscore (c' :: t)
      else '_' :: collapseWSUnderscore (c' :: t)
    else c :: collapseWSUnderscore (c' :: t)

/-- The per-name cleaning of `clean_column_names` before duplicate handling:
missing/blank headers become `Column_<i+1>`; otherwise strip, replace
non-word non-space characters by `_` (`re.sub(r'[^\w\s]', '_', ...)`),
collapse whitespace/underscore runs, strip underscores, and fall back to
`Column_<i+1>` if nothing remains. -/
def cleanBaseName (i : ℕ) (col : Cell) : String :=
  if col = Cell.none ∨ (isStrCell col ∧ pyStrip (pyStr col) = "") then
    "Column_" ++ toString (i + 1)
  else
    let n₀ := pyStrip (pyStr col)
    let n₁ := n₀.toList.map fun c => if isWordChar c || isSpaceChar c then c else '_'
    let n₂ := String.mk (collapseWSUnderscore n₁)
    let n₃ := stripUnderscores n₂
    if n₃ = "" then "Column_" ++ toString (i + 1) else n₃

/-- The `while col_name in seen` suffixing loop: try `base_1`, `base_2`, …
until a name outside `seen` appears. The fuel `seen.length + 1` always
suffices: the candidates are pairwise distinct, so at most `seen.length` of
them can collide (`dedupGo_not_mem` below). -/
def dedupGo (base : String) (seen : List String) : ℕ → ℕ → String
  | 0, counter => base ++ "_" ++ toString counter
  | fuel + 1, counter =>
    let cand := base ++ "_" ++ toString counter
    if cand ∈ seen then dedupGo base seen fuel (counter + 1) else cand

/-- Duplicate handling of `clean_column_names` for one name. -/
def dedupName (base : String) (seen : List String) : String :=
  if base ∈ seen then dedupGo base seen (seen.length + 1) 1 else base

/-- Translation of `clean_column_names`. The accumulated output list plays
the role of the `seen` set (the source adds every produced name to both). -/
def clean_column_names (columns : List Cell) : List String :=
  columns.enum.foldl (fun acc ic => acc ++ [dedupName (cleanBaseName ic.1 ic.2) acc]) []

/-- A pandas DataFrame: column names with column values, in column order. -/
abbrev DataFrame := List (String × List Cell)

/-- `pd.DataFrame(data, columns=...)`: column `j` collects the `j`-th cell
of every row, short rows padded with `NaN`. (pandas rejects rows wider than
the column list; theorems about the non-empty path assume rows fit.) -/
def makeDF (cols : List String) (data : List (List Cell)) : DataFrame :=
  cols.enum.map fun ic => (ic.2, data.map fun row => row.getD ic.1 Cell.none)

/-- Number of rows of a DataFrame (`len(df)`). -/
def dfLen (df : DataFrame) : ℕ :=
  match df with
  | [] => 0
  | c :: _ => c.2.length

/-- `df.values.tolist()`: the rows of the DataFrame. -/
def dfRows (df : DataFrame) : List (List Cell) :=
  (List.range (dfLen df)).map fun i => df.map fun nc => nc.2.getD i Cell.none

/-- The missing-value indicator tokens of `clean_dataframe`. -/
def missingIndicators : List String :=
  ["N/A", "n/a", "NA", "null", "NULL", "None", "NONE", "-", "--", "---"]

/-- Per-cell effect of `clean_dataframe` at the default configuration: trim
string cells, then turn empty/whitespace-only strings and the indicator
tokens into missing values (modern pandas `replace(..., None)` semantics:
the cell becomes `NaN`). -/
def cleanCellValue (c : Cell) : Cell :=
  let c₁ := match c with
    | Cell.str s => Cell.str (pyStrip s)
    | x => x
  match c₁ with
  | Cell.str s =>
    if s = "" ∨ s.toList.all isSpaceChar ∨ s ∈ missingIndicators then Cell.none
    else Cell.str s
  | x => x

/-- Translation of `clean_dataframe` (default configuration:
`trim_whitespace` on, no `replace_missing_with` fill). -/
def clean_dataframe (df : DataFrame) : DataFrame :=
  df.map fun nc => (nc.1, nc.2.map cleanCellValue)

/-- `pd.to_numeric(value, errors='coerce')` on one cell: numbers pass
through, strings go through the float grammar, everything else coerces to
`NaN`. (Non-finite parses are modelled as `NaN`; no claim feeds
`inf`/`nan` tokens through this path.) -/
def pdToNumeric (c : Cell) : Option ℚ :=
  match c with
  | Cell.none => Option.none
  | Cell.int n => some (n : ℚ)
  | Cell.rat q => some q
  | Cell.bool b => some (if b then 1 else 0)
  | Cell.str s =>
    match pyFloatOfString s with
    | some (PyFloat.finite q) => some q
    | _ => Option.none

/-- The boolean token set of `is_boolean_column`. -/
def booleanValues : List String :=
  ["true", "false", "yes", "no", "y", "n", "1", "0", "on", "off", "enabled", "disabled"]

/-- Translation of `is_boolean_column`: at most two distinct lower-cased
string forms, all drawn from the boolean token set. -/
def is_boolean_column (sample : List Cell) : Bool :=
  let uniq := (sample.map fun c => pyLower (pyStr c)).dedup
  uniq.length ≤ 2 && uniq.all (· ∈ booleanValues)

/-- Translation of `is_numeric_column`: fewer than 10% of the sample fail
numeric coercion (the empty sample divides by zero, caught as `False`). -/
def is_numeric_column (sample : List Cell) : Bool :=
  if sample.length = 0 then false
  else ((sample.filter fun c => (pdToNumeric c).isNone).length : ℚ) / (sample.length : ℚ) < 1/10

/-- Translation of `is_integer_column`: every coerced value is integral. -/
def is_integer_column (sample : List Cell) : Bool :=
  ((sample.map pdToNumeric).reduceOption).all fun q => q.den = 1

/-- Translation of `is_categorical_column`: unique ratio below one half and
fewer than 100 distinct values. -/
def is_categorical_column (colData : List Cell) : Bool :=
  ((colData.dedup.length : ℚ) / (colData.length : ℚ) < 1/2) && colData.dedup.length < 100

/-- The sampling of `infer_column_types` (`col_data.sample(n=100)` when the
column exceeds 100 values) is random; the embedding abstracts it as a
function argument constrained by `SamplerOK`. `defaultSample` is the
deterministic instance used for concrete evaluations. -/
def defaultSample (col : List Cell) : List Cell :=
  if col.length ≤ 100 then col else col.take 100

/-- What `pandas.Series.sample(n=100)` guarantees about the abstracted
sampler: on columns longer than 100 it returns a non-empty selection of the
column's values. -/
def SamplerOK (f : List Cell → List Cell) : Prop :=
  ∀ col : List Cell, 100 < col.length → ((∀ x ∈ f col, x ∈ col) ∧ f col ≠ [])

/-- Translation of the per-column body of `infer_column_types`: drop
missing values, sample, then the fixed-priority cascade
boolean → date → integer/float → categorical → text. -/
def inferColumnType (f : List Cell → List Cell) (name : String)
    (values : List Cell) : String :=
  let colData := values.filter (· ≠ Cell.none)
  if colData.length = 0 then "unknown"
  else
    let sample := if colData.length ≤ 100 then colData else f colData
    if is_boolean_column sample then "boolean"
    else if is_date_column name sample then "date"
    else if is_numeric_column sample then
      (if is_integer_column sample then "integer" else "float")
    else if is_categorical_column colData then "categorical"
    else "text"

/-- Translation of `infer_column_types` over a DataFrame. -/
def infer_column_types (f : List Cell → List Cell) (df : DataFrame) :
    List (String × String) :=
  df.map fun nc => (nc.1, inferColumnType f nc.1 nc.2)

/-- Translation of `convert_to_boolean`. -/
def convert_to_boolean (c : Cell) : Cell :=
  match c with
  | Cell.none => Cell.none
  | v =>
    let s := pyStrip (pyLower (pyStr v))
    if s ∈ ["true", "yes", "y", "1", "on", "enabled"] then Cell.bool true
    else if s ∈ ["false", "no", "n", "0", "off", "disabled"] then Cell.bool false
    else Cell.none

/-- Modelled from the spec: `DataCleaner.parse_date` delegates to
`datetime.strptime` over a format list and then `pd.to_datetime` — both
standard-library/pandas parsers outside this repository. Modelled as
failing, which makes `standardize_date` keep the original string; no
theorem below references the values of a date-standardized column. -/
def cleanerStrptime (_s : String) : Option PyDateTime := Option.none

/-- `datetime.strftime('%Y-%m-%d')` with zero padding. -/
def formatYMD (d : PyDateTime) : String :=
  let pad4 := fun (n : ℕ) =>
    let s := toString n
    String.mk (List.replicate (4 - s.length) '0') ++ s
  let pad2 := fun (n : ℕ) =>
    let s := toString n
    String.mk (List.replicate (2 - s.length) '0') ++ s
  pad4 d.year ++ "-" ++ pad2 d.month ++ "-" ++ pad2 d.day

/-- Translation of `standardize_date`: reformat parseable dates to
`YYYY-MM-DD`, keep the original string form otherwise. -/
def standardize_date (c : Cell) : Cell :=
  match c with
  | Cell.none => Cell.none
  | v =>
    match cleanerStrptime (pyStr v) with
    | some d => Cell.str (formatYMD d)
    | Option.none => Cell.str (pyStr v)

/-- The integer conversion of `apply_data_types`:
`pd.to_numeric(col, errors='coerce').fillna(0).astype('Int64')`. `none`
models the `astype` exception on a non-integral value (caught per column,
leaving the column unchanged). -/
def intConvert (values : List Cell) : Option (List Cell) :=
  let filled := values.map fun c => (pdToNumeric c).getD 0
  if filled.all (fun q => q.den = 1) then some (filled.map fun q => Cell.int q.num)
  else Option.none

/-- Per-column effect of `apply_data_types` (standardize_dates on;
`pd.Categorical` keeps the stored values). -/
def applyOneType (dtype : String) (values : List Cell) : List Cell :=
  if dtype = "integer" then (intConvert values).getD values
  else if dtype = "float" then
    values.map fun c =>
      match pdToNumeric c with
      | some q => Cell.rat q
      | Option.none => Cell.none
  else if dtype = "boolean" then values.map convert_to_boolean
  else if dtype = "date" then values.map standardize_date
  else values

/-- One column under the types dictionary: convert when the dictionary
holds a type for it, keep it otherwise. -/
def applyTypesCell (types : List (String × String)) (n : String)
    (v : List Cell) : List Cell :=
  match types.lookup n with
  | some dt => applyOneType dt v
  | Option.none => v

/-- Translation of `apply_data_types`: the loop over the types dictionary
assigning `df[col]` equals this column-wise map because the cleaned column
names are pairwise distinct. -/
def apply_data_types (df : DataFrame) (types : List (String × String)) : DataFrame :=
  df.map fun nc =>
    match types.lookup nc.1 with
    | some dt => (nc.1, applyOneType dt nc.2)
    | Option.none => nc

/-- One `missing_values` entry. -/
structure MissingStat where
  count : ℕ
  percentage : ℚ
deriving DecidableEq, Repr

/-- Python `round(x, 2)` (banker's rounding at two decimals, computed
exactly; the rounded quantities here are exact small rationals). -/
def pyRound2 (q : ℚ) : ℚ :=
  let x := q * 100
  let fl : ℤ := Int.floor x
  let fr := x - (fl : ℚ)
  let r : ℤ :=
    if fr < 1/2 then fl
    else if fr > 1/2 then fl + 1
    else if fl % 2 = 0 then fl else fl + 1
  (r : ℚ) / 100

/-- Translation of `calculate_missing_values`. -/
def calculate_missing_values (df : DataFrame) : List (String × MissingStat) :=
  df.map fun nc =>
    let missingCount := (nc.2.filter (· = Cell.none)).length
    (nc.1,
     ⟨missingCount,
      if dfLen df > 0 then pyRound2 ((missingCount : ℚ) / (dfLen df : ℚ) * 100) else 0⟩)

/-- The shape of one column description. The type-specific floating-point
summaries (min/max/mean/median/stddev, top values, string lengths, date
range) that `generate_column_descriptions` adds per type are outside every
claim and are not modelled. -/
structure ColumnDescription where
  dtype : String
  non_null_count : ℕ
  null_count : ℕ
  unique_count : ℕ
deriving DecidableEq, Repr

/-- Translation of the claim-relevant base of
`generate_column_descriptions`. -/
def generate_column_descriptions (df : DataFrame) (types : List (String × String)) :
    List (String × ColumnDescription) :=
  df.map fun nc =>
    let colData := nc.2.filter (· ≠ Cell.none)
    (nc.1,
     ⟨(types.lookup nc.1).getD "unknown", colData.length,
      nc.2.length - colData.length, colData.dedup.length⟩)

/-- The result dictionary of `clean_structured_data`. The success path of
the source additionally merges the enhanced entity/date metadata keys
(`result.update(enhanced_metadata)`); those detectors are outside the
spec's scope (§1) and every claim, and are not modelled. -/
structure CleanResult where
  columns : List String
  data : List (List Cell)
  data_types : List (String × String)
  row_count : ℕ
  missing_values : List (String × MissingStat)
  descriptions : List (String × ColumnDescription)
deriving DecidableEq, Repr

/-- The explicit empty-result shape returned for empty input. -/
def emptyCleanResult : CleanResult := ⟨[], [], [], 0, [], []⟩

/-- The cleaned DataFrame before type handling (column-name cleaning,
DataFrame construction, value cleaning): the intermediate state of
`clean_structured_data` referenced by the conversion-success hypotheses. -/
def cleanedDF (td : TableData) : DataFrame :=
  clean_dataframe (makeDF (clean_column_names td.columns) td.data)

/-- Translation of `clean_structured_data` at the default configuration
(`remove_duplicates` off, so `drop_duplicates` is never executed). -/
def clean_structured_data (f : List Cell → List Cell) (td : TableData) : CleanResult :=
  if td.columns = [] ∨ td.data = [] then emptyCleanResult
  else
    let df₁ := cleanedDF td
    let types := infer_column_types f df₁
    let df₂ := apply_data_types df₁ types
    let missing := calculate_missing_values df₂
    let descriptions := generate_column_descriptions df₂ types
    let cleanedData := dfRows df₂
    ⟨df₂.map (·.1), cleanedData, types, cleanedData.length, missing, descriptions⟩

/-! ## Unstructured parser (`Validator/unstructured_parser.py`)

`parse_data_block` walks cells row-major with the mutable state
(`content`, `current_section`, `current_subsection`, `pending_value`).
Ordered dictionaries are association lists updated in place
(existing key keeps its position, new keys append). -/

/-- A value of the nested ordered mapping built by the parser: a scalar
string, `None`, a nested mapping, or the `_content` list of prose lines. -/
inductive UVal where
  | str (s : String)
  | none
  | dict (entries : List (String × UVal))
  | list (xs : List String)
deriving Repr

mutual

/-- Decidable equality of nested mapping values (the `deriving` handler
does not support the nested occurrence). -/
def uvalDecEq : (a b : UVal) → Decidable (a = b)
  | UVal.str a, UVal.str b =>
    match decEq a b with
    | isTrue h => isTrue (by rw [h])
    | isFalse h => isFalse (fun he => h (UVal.str.inj he))
  | UVal.str _, UVal.none => isFalse fun h => UVal.noConfusion h
  | UVal.str _, UVal.dict _ => isFalse fun h => UVal.noConfusion h
  | UVal.str _, UVal.list _ => isFalse fun h => UVal.noConfusion h
  | UVal.none, UVal.str _ => isFalse fun h => UVal.noConfusion h
  | UVal.none, UVal.none => isTrue rfl
  | UVal.none, UVal.dict _ => isFalse fun h => UVal.noConfusion h
  | UVal.none, UVal.list _ => isFalse fun h => UVal.noConfusion h
  | UVal.dict _, UVal.str _ => isFalse fun h => UVal.noConfusion h
  | UVal.dict _, UVal.none => isFalse fun h => UVal.noConfusion h
  | UVal.dict a, UVal.dict b =>
    match uvalEntriesDecEq a b with
    | isTrue h => isTrue (by rw [h])
    | isFalse h => isFalse (fun he => h (UVal.dict.inj he))
  | UVal.dict _, UVal.list _ => isFalse fun h => UVal.noConfusion h
  | UVal.list _, UVal.str _ => isFalse fun h => UVal.noConfusion h
  | UVal.list _, UVal.none => isFalse fun h => UVal.noConfusion h
  | UVal.list _, UVal.dict _ => isFalse fun h => UVal.noConfusion h
  | UVal.list a, UVal.list b =>
    match decEq a b with
    | isTrue h => isTrue (by rw [h])
    | isFalse h => isFalse (fun he => h (UVal.list.inj he))

/-- Decidable equality of entry lists. -/
def uvalEntriesDecEq : (a b : List (String × UVal)) → Decidable (a = b)
  | [], [] => isTrue rfl
  | [], _ :: _ => isFalse fun h => List.noConfusion h
  | _ :: _, [] => isFalse fun h => List.noConfusion h
  | (k, v) :: t, (k', v') :: t' =>
    match decEq k k', uvalDecEq v v', uvalEntriesDecEq t t' with
    | isTrue h1, isTrue h2, isTrue h3 => isTrue (by rw [h1, h2, h3])
    | isFalse h1, _, _ =>
      isFalse fun he => h1 (congrArg Prod.fst (List.head_eq_of_cons_eq he))
    | _, isFalse h2, _ =>
      isFalse fun he => h2 (congrArg Prod.snd (List.head_eq_of_cons_eq he))
    | _, _, isFalse h3 => isFalse fun he => h3 (List.tail_eq_of_cons_eq he)

end

instance : DecidableEq UVal := uvalDecEq

/-- An ordered mapping. -/
abbrev Content := List (String × UVal)

/-- Ordered-dict assignment `d[k] = v`: update in place or append. -/
def assocSet (kvs : Content) (k : String) (v : UVal) : Content :=
  match kvs with
  | [] => [(k, v)]
  | (k', v') :: t => if k' = k then (k', v) :: t else (k', v') :: assocSet t k v

/-- Read `content[k]` as a dictionary (the source would raise on a
non-dict value there; the grids considered never produce that). -/
def contentGetDict (c : Content) (k : String) : Content :=
  match c.lookup k with
  | some (UVal.dict d) => d
  | _ => []

/-- Python truthiness of the nullable section/subsection strings. -/
def optTruthy : Option String → Bool
  | some s => s ≠ ""
  | Option.none => false

/-- The bullet characters of `key_patterns` / `hierarchy_indicators`. -/
def bulletChars : List Char := ['•', '·', '▪', '▫', '◦', '‣', '⁃']

/-- Regex `^\d+\.\s+[A-Z]` (or `[A-Za-z]` when `anyCase`): numbered item. -/
def matchNumDotLetter (anyCase : Bool) (l : List Char) : Bool :=
  !(l.takeWhile isDigitChar).isEmpty &&
  (match l.dropWhile isDigitChar with
   | '.' :: r =>
     !(r.takeWhile isSpaceChar).isEmpty &&
     (match r.dropWhile isSpaceChar with
      | c :: _ => if anyCase then isAlphaChar c else isUpperChar c
      | [] => false)
   | _ => false)

/-- Regex `^Section\s+\d+`. -/
def matchSectionNum (l : List Char) : Bool :=
  "Section".toList.isPrefixOf l &&
  (let r := l.drop 7
   !(r.takeWhile isSpaceChar).isEmpty &&
   (match r.dropWhile isSpaceChar with
    | c :: _ => isDigitChar c
    | [] => false))

/-- Regex `^[A-Z][A-Z\s]+$`: a capital followed by at least one more
capital or space, to the end of the string. -/
def matchAllCapsFull (l : List Char) : Bool :=
  match l with
  | c :: rest =>
    isUpperChar c && !rest.isEmpty && rest.all fun d => isUpperChar d || isSpaceChar d
  | [] => false

/-- Translation of `is_section_header`. -/
def is_section_header (text : String) (colIdx : ℕ) : Bool :=
  if colIdx > 2 then false
  else
    let l := text.toList
    matchAllCapsFull l || matchNumDotLetter false l || matchSectionNum l ||
    (pyIsUpper text && decide ((pySplitWS text).length > 1) && !(pyEndsWith text ":"))

/-- Regex `^\d+\.\d+\s+`. -/
def matchSubNum (l : List Char) : Bool :=
  !(l.takeWhile isDigitChar).isEmpty &&
  (match l.dropWhile isDigitChar with
   | '.' :: r => !(r.takeWhile isDigitChar).isEmpty &&
       !((r.dropWhile isDigitChar).takeWhile isSpaceChar).isEmpty
   | _ => false)

/-- Regex `^[a-z]\)`. -/
def matchLowParen (l : List Char) : Bool :=
  match l with
  | a :: b :: _ => isLowerChar a && b = ')'
  | _ => false

/-- Regex `^\s{2,}[A-Z]`: at least two leading spaces, the first non-space
character a capital. -/
def matchIndentCap (l : List Char) : Bool :=
  decide ((l.takeWhile isSpaceChar).length ≥ 2) &&
  (match l.dropWhile isSpaceChar with
   | c :: _ => isUpperChar c
   | [] => false)

/-- Translation of `is_subsection_header` (the column argument is unused by
the source as well). -/
def is_subsection_header (text : String) (_colIdx : ℕ) : Bool :=
  let l := text.toList
  matchSubNum l || matchLowParen l || matchIndentCap l ||
  (let words := pySplitWS text
   decide (words.length > 1) &&
   (words.all fun w =>
     match w.toList with
     | c :: _ => isUpperChar c
     | [] => true) &&
   !(pyEndsWith text ":"))

/-- Translation of `is_header`. -/
def is_header (text : String) : Bool :=
  is_section_header text 0 || is_subsection_header text 1

/-- Translation of `is_key_value_pair`: a colon or equals separator with a
non-blank left-hand side shorter than 50 characters. -/
def is_key_value_pair (text : String) : Bool :=
  (match splitFirst ':' text with
   | some p => pyStrip p.1 ≠ "" && decide (p.1.length < 50)
   | Option.none => false) ||
  (match splitFirst '=' text with
   | some p => pyStrip p.1 ≠ "" && decide (p.1.length < 50)
   | Option.none => false)

/-- Regex `^[A-Z][a-zA-Z\s]+:` or `^[A-Z][A-Z\s]+:`: a capital, a non-empty
run over the class, then a colon (the class excludes the colon, so only the
maximal run can be followed by one). -/
def matchCapsColon (cls : Char → Bool) (l : List Char) : Bool :=
  match l with
  | c :: rest =>
    isUpperChar c &&
    (let run := rest.takeWhile cls
     !run.isEmpty &&
     (match rest.dropWhile cls with
      | ':' :: _ => true
      | _ => false))
  | [] => false

/-- Translation of `is_standalone_key`: ends with a colon, or matches one
of the `key_patterns`. -/
def is_standalone_key (text : String) : Bool :=
  pyEndsWith text ":" ||
  (let l := text.toList
   matchCapsColon (fun c => isAlphaChar c || isSpaceChar c) l ||
   matchCapsColon (fun c => isUpperChar c || isSpaceChar c) l ||
   matchNumDotLetter true l ||
   (match l with
    | b :: rest => decide (b ∈ bulletChars) && !((rest.takeWhile isSpaceChar).isEmpty)
    | [] => false) ||
   (match l with
    | '(' :: c :: ')' :: _ => isLowerChar c
    | _ => false) ||
   (!(l.takeWhile isDigitChar).isEmpty &&
    (match l.dropWhile isDigitChar with
     | ')' :: _ => true
     | _ => false)))

/-- Translation of `extract_key_value`: split at the first colon (else the
first equals), an empty right-hand side becoming `None`. -/
def extract_key_value (text : String) : String × Option String :=
  match splitFirst ':' text with
  | some p =>
    (pyStrip p.1, if pyStrip p.2 = "" then Option.none else some (pyStrip p.2))
  | Option.none =>
    match splitFirst '=' text with
    | some p =>
      (pyStrip p.1, if pyStrip p.2 = "" then Option.none else some (pyStrip p.2))
    | Option.none => (text, Option.none)

/-- Translation of `clean_header`: strip leading numbering, a
parenthesised letter, a bullet, then surrounding whitespace. -/
def clean_header (text : String) : String :=
  let l := text.toList
  let l₁ :=
    if (l.takeWhile isDigitChar) ≠ [] then
      let r := l.dropWhile isDigitChar
      let r' := match r with
        | '.' :: t => t
        | _ => r
      r'.dropWhile isSpaceChar
    else l
  let l₂ := match l₁ with
    | '(' :: c :: ')' :: t => if isLowerChar c then t.dropWhile isSpaceChar else l₁
    | _ => l₁
  let l₃ := match l₂ with
    | b :: t => if b ∈ bulletChars then t.dropWhile isSpaceChar else l₂
    | [] => l₂
  pyStrip (String.mk l₃)

/-- Translation of `clean_key`: drop a trailing colon and normalise
whitespace. -/
def clean_key (text : String) : String :=
  let t := if pyEndsWith text ":" then String.mk text.toList.dropLast else text
  joinSpace (pySplitWS t)

/-- The `UVal` stored for a key's optional value. -/
def uvOfValue : Option String → UVal
  | some s => UVal.str s
  | Option.none => UVal.none

/-- Translation of `add_key_value_to_structure`. -/
def add_key_value_to_structure (content : Content) (sec sub : Option String)
    (key : String) (value : Option String) : Content :=
  if optTruthy sec ∧ optTruthy sub then
    let s := sec.getD ""
    let ss := sub.getD ""
    let sdict := contentGetDict content s
    let ssdict := contentGetDict sdict ss
    assocSet content s (UVal.dict (assocSet sdict ss
      (UVal.dict (assocSet ssdict key (uvOfValue value)))))
  else if optTruthy sec then
    let s := sec.getD ""
    let sdict := contentGetDict content s
    assocSet content s (UVal.dict (assocSet sdict key (uvOfValue value)))
  else assocSet content key (uvOfValue value)

/-- Read an existing `_content` list (absent or non-list becomes empty,
as the source creates `[]` when the key is missing). -/
def contentList (c : Content) : List String :=
  match c.lookup "_content" with
  | some (UVal.list xs) => xs
  | _ => []

/-- Translation of `add_to_structure`: join the pending values with spaces
and append to the `_content` list at the deepest open level. -/
def add_to_structure (content : Content) (sec sub : Option String)
    (values : List String) : Content :=
  if values = [] then content
  else
    let combined := joinSpace values
    if optTruthy sec ∧ optTruthy sub then
      let s := sec.getD ""
      let ss := sub.getD ""
      let sdict := contentGetDict content s
      let ssdict := contentGetDict sdict ss
      assocSet content s (UVal.dict (assocSet sdict ss
        (UVal.dict (assocSet ssdict "_content"
          (UVal.list (contentList ssdict ++ [combined]))))))
    else if optTruthy sec then
      let s := sec.getD ""
      let sdict := contentGetDict content s
      assocSet content s (UVal.dict (assocSet sdict "_content"
        (UVal.list (contentList sdict ++ [combined]))))
    else assocSet content "_content" (UVal.list (contentList content ++ [combined]))

/-- The mutable state of `parse_data_block`. -/
structure ParseState where
  content : Content
  currentSection : Option String
  currentSubsection : Option String
  pending : List String
deriving Repr

/-- One cell step of `parse_data_block`'s loop. -/
def processCell (st : ParseState) (colIdx : ℕ) (cell : Cell)
    (row : List Cell) : ParseState :=
  if cell = Cell.none ∨ (isStrCell cell ∧ pyStrip (pyStr cell) = "") then st
  else
    let cellStr := pyStrip (pyStr cell)
    if is_section_header cellStr colIdx then
      let flush := st.pending ≠ [] ∧ optTruthy st.currentSection
      let content₁ := if flush then
          add_to_structure st.content st.currentSection st.currentSubsection st.pending
        else st.content
      let pending₁ := if flush then [] else st.pending
      let cs := clean_header cellStr
      let content₂ := if (content₁.lookup cs).isSome then content₁
        else content₁ ++ [(cs, UVal.dict [])]
      ⟨content₂, some cs, Option.none, pending₁⟩
    else if is_subsection_header cellStr colIdx then
      let flush := st.pending ≠ [] ∧ optTruthy st.currentSection
      let content₁ := if flush then
          add_to_structure st.content st.currentSection st.currentSubsection st.pending
        else st.content
      let pending₁ := if flush then [] else st.pending
      let css := clean_header cellStr
      let content₂ :=
        if optTruthy st.currentSection then
          let s := st.currentSection.getD ""
          let sdict := contentGetDict content₁ s
          if (sdict.lookup css).isSome then content₁
          else assocSet content₁ s (UVal.dict (sdict ++ [(css, UVal.dict [])]))
        else content₁
      ⟨content₂, st.currentSection, some css, pending₁⟩
    else if is_key_value_pair cellStr then
      let kv := extract_key_value cellStr
      let value :=
        if colIdx + 1 < row.length ∧ row.getD (colIdx + 1) Cell.none ≠ Cell.none then
          let nextCell := pyStrip (pyStr (row.getD (colIdx + 1) Cell.none))
          if !(is_key_value_pair nextCell) ∧ !(is_header nextCell) then
            match kv.2 with
            | some v => some (v ++ " " ++ nextCell)
            | Option.none => some nextCell
          else kv.2
        else kv.2
      { st with content := (add_key_value_to_structure st.content st.currentSection
          st.currentSubsection kv.1 value) }
    else if is_standalone_key cellStr then
      let key := clean_key cellStr
      let value :=
        if colIdx + 1 < row.length ∧ row.getD (colIdx + 1) Cell.none ≠ Cell.none then
          let nextCell := pyStrip (pyStr (row.getD (colIdx + 1) Cell.none))
          if !(is_key_value_pair nextCell) ∧ !(is_header nextCell) then some nextCell
          else Option.none
        else Option.none
      { st with content := (add_key_value_to_structure st.content st.currentSection
          st.currentSubsection key value) }
    else { st with pending := st.pending ++ [cellStr] }

/-- Translation of `parse_data_block`: fold the cell machine over the rows
and flush any remaining pending prose. -/
def parse_data_block (data : Grid) : Content :=
  let st := data.foldl
    (fun st row => row.enum.foldl (fun st ic => processCell st ic.1 ic.2 row) st)
    ⟨[], Option.none, Option.none, []⟩
  if st.pending ≠ [] then
    add_to_structure st.content st.currentSection st.currentSubsection st.pending
  else st.content

/-! ## Concrete inputs referenced by the claims -/

/-- The table-extraction scenario grid
`[["Name","Revenue"],["Acme","100"],["Beta","200"]]`. -/
def scenarioTableGrid : Grid :=
  [[Cell.str "Name", Cell.str "Revenue"],
   [Cell.str "Acme", Cell.str "100"],
   [Cell.str "Beta", Cell.str "200"]]

/-- A grid holding both a clean table block and a separate key-value block
(split by an all-`None` row, so region discovery finds two components). -/
def mixedGrid : Grid :=
  scenarioTableGrid ++ [[Cell.none, Cell.none], [Cell.str "Total:", Cell.str "300"]]

/-- A non-empty grid all of whose cells are `None`. -/
def allNoneGrid : Grid := [[Cell.none, Cell.none]]

/-- The key-value parsing scenario grid. -/
def kvScenarioGrid : Grid :=
  [[Cell.str "COMPANY OVERVIEW"],
   [Cell.str "Name:", Cell.str "Acme Corp"],
   [Cell.str "Founded:", Cell.str "1999"]]

/-- A one-column table whose values are large integers (so neither the
boolean, date nor categorical tests fire) with one missing cell. -/
def amountTable : TableData :=
  ⟨[Cell.str "Amount"], [[Cell.str "123456789"], [Cell.str "987654321"], [Cell.none]]⟩

/-- The table region found in `mixedGrid` (rows 0-2). -/
def tableRegion : Region :=
  ⟨0, 2, 0, 1, 6, [(0, 0), (1, 0), (2, 0), (2, 1), (1, 1), (0, 1)]⟩

/-- The key-value region found in `mixedGrid` (row 4). -/
def kvRegion : Region := ⟨4, 4, 0, 1, 2, [(4, 0), (4, 1)]⟩

/-- The distinct lower-cased string forms of a column's non-missing values
(the quantity the boolean test of the type cascade inspects). -/
def distinctLoweredValues (values : List Cell) : List String :=
  ((values.filter (· ≠ Cell.none)).map fun c => pyLower (pyStr c)).dedup

/-- Invariant of the flood-fill loop, relative to the visited set `V₀` at
the start of the enclosing `expand_region` call: the visited set only
grows; stack and collected cells hold data cells that are newly visited in
this call; the bounding box is ordered and its rows stay inside the grid. -/
def FloodInv (m : ℕ → ℕ → Bool) (rows : ℕ) (V₀ : List (ℕ × ℕ))
    (st : FloodState) : Prop :=
  (∀ p ∈ V₀, p ∈ st.visited) ∧
  (∀ p ∈ st.stack, p ∈ st.visited ∧ p ∉ V₀ ∧ m p.1 p.2 = true) ∧
  (∀ p ∈ st.cells, p ∈ st.visited ∧ p ∉ V₀ ∧ m p.1 p.2 = true) ∧
  st.minRow ≤ st.maxRow ∧ st.maxRow < rows

/-- Invariant of `find_data_regions`' scan, over the pairs of accumulated
regions and shared visited set: every region so far is an area-≥2 region of
visited data cells with a well-formed bounding box, and regions are
pairwise cell-disjoint. -/
def RegionsInv (m : ℕ → ℕ → Bool) (rows : ℕ)
    (acc : List Region × List (ℕ × ℕ)) : Prop :=
  (∀ reg ∈ acc.1, 2 ≤ reg.area ∧
    (∀ p ∈ reg.cells, m p.1 p.2 = true ∧ p ∈ acc.2) ∧
    reg.min_row ≤ reg.max_row ∧ reg.max_row < rows) ∧
  List.Pairwise (fun r₁ r₂ => ∀ p ∈ r₁.cells, p ∉ r₂.cells) acc.1

/-- Invariant of `analyze_data_patterns`' region loop: once a table has
been seen the bounds are set, and whenever bounds are set the header and
data-start rows are set consistently with them. -/
def AnalysisInv (a : Analysis) : Prop :=
  (a.has_table_structure = true → a.table_bounds ≠ Option.none) ∧
  (∀ b, a.table_bounds = some b →
    ∃ h s, a.header_row = some h ∧ a.data_start_row = some s ∧ h < s ∧ s ≤ b.max_row)

/-! ## General helper lemmas

Injectivity of `Nat.repr` (needed to show the `_1`, `_2`, … suffixing loop
of `clean_column_names` always escapes the set of already-used names), and
small list facts. -/

theorem digitChar_inj : ∀ a < 10, ∀ b < 10, Nat.digitChar a = Nat.digitChar b → a = b := by
  decide

theorem toDigitsCore_eq_digits (n : ℕ) : ∀ (fuel : ℕ) (acc : List Char), 0 < n → n < fuel →
    Nat.toDigitsCore 10 fuel n acc = ((Nat.digits 10 n).map Nat.digitChar).reverse ++ acc := by
  induction n using Nat.strong_induction_on with
  | _ n ih =>
    intro fuel acc h0 hf
    cases fuel with
    | zero => omega
    | succ f =>
      rw [Nat.digits_def' (by norm_num : (1:ℕ) < 10) h0]
      by_cases hq : n / 10 = 0
      · simp [Nat.toDigitsCore, hq]
      · have hlt : n / 10 < n := Nat.div_lt_self h0 (by norm_num)
        have h0' : 0 < n / 10 := Nat.pos_of_ne_zero hq
        have hf' : n / 10 < f := by omega
        simp only [Nat.toDigitsCore, hq, if_false]
        rw [ih (n / 10) hlt f (Nat.digitChar (n % 10) :: acc) h0' hf']
        simp

theorem map_digitChar_inj : ∀ (l₁ l₂ : List ℕ), (∀ d ∈ l₁, d < 10) → (∀ d ∈ l₂, d < 10) →
    l₁.map Nat.digitChar = l₂.map Nat.digitChar → l₁ = l₂ := by
  intro l₁
  induction l₁ with
  | nil =>
    intro l₂ _ _ h
    cases l₂ with
    | nil => rfl
    | cons b t => simp at h
  | cons a t ih =>
    intro l₂ h₁ h₂ h
    cases l₂ with
    | nil => simp at h
    | cons b t₂ =>
      simp only [List.map_cons, List.cons.injEq] at h
      have hab : a = b :=
        digitChar_inj a (h₁ a (by simp)) b (h₂ b (by simp)) h.1
      rw [hab, ih t₂ (fun d hd => h₁ d (by simp [hd])) (fun d hd => h₂ d (by simp [hd])) h.2]

theorem digits_eq_of_toDigitsCore_eq {m n : ℕ} (hm : 0 < m) (hn : 0 < n)
    (h : Nat.toDigitsCore 10 (m + 1) m [] = Nat.toDigitsCore 10 (n + 1) n []) : m = n := by
  rw [toDigitsCore_eq_digits m (m + 1) [] hm (Nat.lt_succ_self m),
      toDigitsCore_eq_digits n (n + 1) [] hn (Nat.lt_succ_self n)] at h
  simp only [List.append_nil, List.reverse_inj] at h
  have hd := map_digitChar_inj (Nat.digits 10 m) (Nat.digits 10 n)
    (fun d hd => Nat.digits_lt_base (by norm_num) hd)
    (fun d hd => Nat.digits_lt_base (by norm_num) hd) h
  have := congrArg (Nat.ofDigits 10) hd
  rwa [Nat.ofDigits_digits, Nat.ofDigits_digits] at this

theorem toDigitsCore_zero_ne {n : ℕ} (hn : 0 < n) :
    Nat.toDigitsCore 10 1 0 [] ≠ Nat.toDigitsCore 10 (n + 1) n [] := by
  intro h
  rw [toDigitsCore_eq_digits n (n + 1) [] hn (Nat.lt_succ_self n)] at h
  have h' : (Nat.digits 10 n).map Nat.digitChar = ['0'] := by
    have : ((Nat.digits 10 n).map Nat.digitChar).reverse = ['0'] := by
      simpa [Nat.toDigitsCore] using h.symm
    simpa [List.reverse_eq_iff] using this
  cases hdig : Nat.digits 10 n with
  | nil => rw [hdig] at h'; simp at h'
  | cons d ds =>
    rw [hdig] at h'
    simp only [List.map_cons, List.cons.injEq, List.map_eq_nil_iff] at h'
    have hd10 : d < 10 := Nat.digits_lt_base (by norm_num) (by rw [hdig]; simp)
    have hd0 : d = 0 := digitChar_inj d hd10 0 (by norm_num) h'.1
    have : n = 0 := by
      have := congrArg (Nat.ofDigits 10) hdig
      rw [Nat.ofDigits_digits] at this
      simp [this, hd0, h'.2, Nat.ofDigits]
    omega

theorem natRepr_inj {m n : ℕ} (h : Nat.repr m = Nat.repr n) : m = n := by
  have hd : Nat.toDigits 10 m = Nat.toDigits 10 n := by
    have := congrArg String.data h
    simpa [Nat.repr, List.asString] using this
  unfold Nat.toDigits at hd
  rcases Nat.eq_zero_or_pos m with hm | hm
  · rcases Nat.eq_zero_or_pos n with hn | hn
    · omega
    · subst hm; exact absurd hd (toDigitsCore_zero_ne hn)
  · rcases Nat.eq_zero_or_pos n with hn | hn
    · subst hn; exact absurd hd.symm (toDigitsCore_zero_ne hm)
    · exact digits_eq_of_toDigitsCore_eq hm hn hd

theorem natToString_inj {m n : ℕ} (h : toString m = toString n) : m = n :=
  natRepr_inj h

theorem strAppend_left_cancel {a x y : String} (h : a ++ x = a ++ y) : x = y := by
  apply String.ext
  have := congrArg String.data h
  simp only [String.data_append] at this
  exact List.append_cancel_left this

theorem append_underscore_ne_empty (a b : String) : a ++ "_" ++ b ≠ "" := by
  intro h
  have := congrArg String.data h
  simp [String.data_append] at this

/-! ## Properties of the column-name dedup loop -/

theorem dedupCand_inj (base : String) (counter : ℕ) :
    Function.Injective fun j : ℕ => base ++ "_" ++ toString (counter + j) := by
  intro a b h
  simp only at h
  have h' : toString (counter + a) = toString (counter + b) := strAppend_left_cancel h
  have := natToString_inj h'
  omega

theorem exists_fresh_candidate (base : String) (seen : List String) (counter : ℕ) :
    ∃ j < seen.length + 1, (base ++ "_" ++ toString (counter + j)) ∉ seen := by
  by_contra hc
  push_neg at hc
  have hmap : ((List.range (seen.length + 1)).map
      fun j => base ++ "_" ++ toString (counter + j)).Nodup :=
    (List.nodup_range _).map (dedupCand_inj base counter)
  have hsub : ((List.range (seen.length + 1)).map
      fun j => base ++ "_" ++ toString (counter + j)) ⊆ seen := by
    intro s hs
    simp only [List.mem_map, List.mem_range] at hs
    obtain ⟨j, hj, rfl⟩ := hs
    exact hc j hj
  have hle := (hmap.subperm hsub).length_le
  simp at hle

theorem dedupGo_not_mem (base : String) (seen : List String) :
    ∀ (fuel counter : ℕ), (∃ j < fuel, (base ++ "_" ++ toString (counter + j)) ∉ seen) →
      dedupGo base seen fuel counter ∉ seen := by
  intro fuel
  induction fuel with
  | zero =>
    intro counter h
    obtain ⟨j, hj, _⟩ := h
    omega
  | succ f ih =>
    intro counter h
    obtain ⟨j, hj, hfree⟩ := h
    by_cases hmem : (base ++ "_" ++ toString counter) ∈ seen
    · have hj0 : j ≠ 0 := by
        rintro rfl
        simp only [Nat.add_zero] at hfree
        exact hfree hmem
      have hrec := ih (counter + 1) ⟨j - 1, by omega, by
        have harith : counter + 1 + (j - 1) = counter + j := by omega
        rw [harith]; exact hfree⟩
      simpa [dedupGo, hmem] using hrec
    · simp [dedupGo, hmem]

theorem dedupName_not_mem (base : String) (seen : List String) :
    dedupName base seen ∉ seen := by
  by_cases h : base ∈ seen
  · simp only [dedupName, if_pos h]
    exact dedupGo_not_mem base seen (seen.length + 1) 1 (exists_fresh_candidate base seen 1)
  · simp [dedupName, h]

theorem dedupGo_shape (base : String) (seen : List String) :
    ∀ (fuel counter : ℕ), ∃ c : ℕ, dedupGo base seen fuel counter = base ++ "_" ++ toString c := by
  intro fuel
  induction fuel with
  | zero => intro counter; exact ⟨counter, rfl⟩
  | succ f ih =>
    intro counter
    by_cases hmem : (base ++ "_" ++ toString counter) ∈ seen
    · obtain ⟨c, hc⟩ := ih (counter + 1)
      exact ⟨c, by simpa [dedupGo, hmem] using hc⟩
    · exact ⟨counter, by simp [dedupGo, hmem]⟩

theorem dedupName_ne_empty (base : String) (seen : List String) (hb : base ≠ "") :
    dedupName base seen ≠ "" := by
  by_cases h : base ∈ seen
  · simp only [dedupName, if_pos h]
    obtain ⟨c, hc⟩ := dedupGo_shape base seen (seen.length + 1) 1
    rw [hc]
    exact append_underscore_ne_empty base (toString c)
  · simpa [dedupName, h] using hb

theorem dedupName_eq_of_not_mem (base : String) (seen : List String) (h : base ∉ seen) :
    dedupName base seen = base := by
  simp [dedupName, h]

theorem cleanBaseName_ne_empty (i : ℕ) (c : Cell) : cleanBaseName i c ≠ "" := by
  have hcol : ("Column_" ++ toString (i + 1) : String) ≠ "" := by
    intro h
    have := congrArg String.data h
    simp [String.data_append] at this
  unfold cleanBaseName
  split
  · exact hcol
  · dsimp only
    split
    · exact hcol
    · next h₂ => exact h₂

/-! ## Properties of `clean_column_names` -/

theorem getD_append_cons (l₁ : List String) (x : String) (l₂ : List String) :
    (l₁ ++ x :: l₂).getD l₁.length "" = x := by
  induction l₁ with
  | nil => rfl
  | cons a t ih => exact ih

theorem take_append_left (l₁ l₂ : List String) : (l₁ ++ l₂).take l₁.length = l₁ := by
  induction l₁ with
  | nil => rfl
  | cons a t ih => simp [ih]

theorem cleanFold_props : ∀ (cs : List Cell) (k : ℕ) (acc : List String),
    ((List.enumFrom k cs).foldl
        (fun a ic => a ++ [dedupName (cleanBaseName ic.1 ic.2) a]) acc).length =
      acc.length + cs.length ∧
    (∃ tl, (List.enumFrom k cs).foldl
        (fun a ic => a ++ [dedupName (cleanBaseName ic.1 ic.2) a]) acc = acc ++ tl) ∧
    (acc.Nodup → ((List.enumFrom k cs).foldl
        (fun a ic => a ++ [dedupName (cleanBaseName ic.1 ic.2) a]) acc).Nodup) ∧
    ((∀ n ∈ acc, n ≠ "") → ∀ n ∈ (List.enumFrom k cs).foldl
        (fun a ic => a ++ [dedupName (cleanBaseName ic.1 ic.2) a]) acc, n ≠ "") := by
  intro cs
  induction cs with
  | nil => intro k acc; refine ⟨by simp, ⟨[], by simp⟩, fun h => by simpa using h, ?_⟩
           intro h n hn
           simpa using h n (by simpa using hn)
  | cons c cs ih =>
    intro k acc
    have hstep : (List.enumFrom k (c :: cs)).foldl
        (fun a ic => a ++ [dedupName (cleanBaseName ic.1 ic.2) a]) acc =
        (List.enumFrom (k + 1) cs).foldl
        (fun a ic => a ++ [dedupName (cleanBaseName ic.1 ic.2) a])
        (acc ++ [dedupName (cleanBaseName k c) acc]) := rfl
    obtain ⟨ihlen, ⟨tl, ihtl⟩, ihnd, ihne⟩ :=
      ih (k + 1) (acc ++ [dedupName (cleanBaseName k c) acc])
    refine ⟨by rw [hstep, ihlen]; simp; omega, ?_, ?_, ?_⟩
    · exact ⟨[dedupName (cleanBaseName k c) acc] ++ tl, by rw [hstep, ihtl]; simp⟩
    · intro hnd
      rw [hstep]
      apply ihnd
      rw [List.nodup_append]
      refine ⟨hnd, List.nodup_singleton _, ?_⟩
      intro x hx hx'
      simp only [List.mem_singleton] at hx'
      subst hx'
      exact dedupName_not_mem _ acc hx
    · intro hne
      rw [hstep]
      apply ihne
      intro n hn
      rcases List.mem_append.mp hn with h | h
      · exact hne n h
      · simp only [List.mem_singleton] at h
        subst h
        exact dedupName_ne_empty _ acc (cleanBaseName_ne_empty k c)

theorem cleanFold_first_occ : ∀ (cs : List Cell) (k : ℕ) (acc : List String)
    (i : ℕ), i < cs.length →
    cleanBaseName (k + i) (cs.getD i Cell.none) ∉
      ((List.enumFrom k cs).foldl
        (fun a ic => a ++ [dedupName (cleanBaseName ic.1 ic.2) a]) acc).take (acc.length + i) →
    ((List.enumFrom k cs).foldl
        (fun a ic => a ++ [dedupName (cleanBaseName ic.1 ic.2) a]) acc).getD
      (acc.length + i) "" = cleanBaseName (k + i) (cs.getD i Cell.none) := by
  intro cs
  induction cs with
  | nil => intro k acc i hi; simp at hi
  | cons c cs ih =>
    intro k acc i hi htake
    have hstep : (List.enumFrom k (c :: cs)).foldl
        (fun a ic => a ++ [dedupName (cleanBaseName ic.1 ic.2) a]) acc =
        (List.enumFrom (k + 1) cs).foldl
        (fun a ic => a ++ [dedupName (cleanBaseName ic.1 ic.2) a])
        (acc ++ [dedupName (cleanBaseName k c) acc]) := rfl
    obtain ⟨-, ⟨tl, htl⟩, -, -⟩ :=
      cleanFold_props cs (k + 1) (acc ++ [dedupName (cleanBaseName k c) acc])
    cases i with
    | zero =>
      rw [hstep, htl] at htake ⊢
      rw [show (c :: cs).getD 0 Cell.none = c from rfl,
          show k + 0 = k from rfl, show acc.length + 0 = acc.length from rfl] at htake ⊢
      rw [List.append_assoc] at htake ⊢
      rw [take_append_left] at htake
      rw [show ([dedupName (cleanBaseName k c) acc] ++ tl) =
            dedupName (cleanBaseName k c) acc :: tl from rfl,
          getD_append_cons]
      exact dedupName_eq_of_not_mem _ acc htake
    | succ i =>
      rw [hstep] at htake ⊢
      have harith : acc.length + (i + 1) =
          (acc ++ [dedupName (cleanBaseName k c) acc]).length + i := by simp; omega
      have harith2 : k + (i + 1) = (k + 1) + i := by omega
      have hget : ((c :: cs).getD (i + 1) Cell.none) = cs.getD i Cell.none := by simp
      rw [harith, harith2, hget] at htake ⊢
      exact ih (k + 1) (acc ++ [dedupName (cleanBaseName k c) acc]) i
        (by simpa using hi) htake

/-! ## Flood-fill invariants (`find_data_regions` / `expand_region`) -/

theorem le_foldl_max : ∀ (l : List ℕ) (a : ℕ),
    (∀ x ∈ l, x ≤ l.foldl max a) ∧ a ≤ l.foldl max a := by
  intro l
  induction l with
  | nil => intro a; exact ⟨by simp, le_refl a⟩
  | cons b t ih =>
    intro a
    obtain ⟨h₁, h₂⟩ := ih (max a b)
    refine ⟨?_, le_trans (le_max_left a b) h₂⟩
    intro x hx
    rcases List.mem_cons.mp hx with rfl | hx
    · exact le_trans (le_max_right a x) h₂
    · exact h₁ x hx

theorem gridHasData_lt {data : Grid} {i j : ℕ} (h : gridHasData data i j = true) :
    i < data.length ∧ j < maxRowLen data := by
  unfold gridHasData at h
  cases hrow : data.get? i with
  | none => rw [hrow] at h; exact absurd h (by simp)
  | some row =>
    rw [hrow] at h
    dsimp only at h
    cases hcell : row.get? j with
    | none => rw [hcell] at h; exact absurd h (by simp)
    | some c =>
      have hi : i < data.length := by
        by_contra hge
        rw [List.get?_eq_none.mpr (by omega)] at hrow
        exact Option.noConfusion hrow
      have hj : j < row.length := by
        by_contra hge
        rw [List.get?_eq_none.mpr (by omega)] at hcell
        exact Option.noConfusion hcell
      have hmem : row.length ∈ data.map List.length :=
        List.mem_map_of_mem List.length (List.get?_mem hrow)
      have hle : row.length ≤ maxRowLen data :=
        (le_foldl_max (data.map List.length) 0).1 row.length hmem
      exact ⟨hi, by omega⟩

theorem tryPush_inv {m : ℕ → ℕ → Bool} {rows cols : ℕ} {V₀ : List (ℕ × ℕ)}
    {st : FloodState} {rc : ℤ × ℤ} (h : FloodInv m rows V₀ st) :
    FloodInv m rows V₀ (tryPush m rows cols st rc) := by
  obtain ⟨hV, hstack, hcells, hminmax, hmax⟩ := h
  unfold tryPush
  split
  · next hb =>
    dsimp only
    split
    · next hcond =>
      obtain ⟨hm, hnv⟩ := hcond
      have hrow : rc.1.toNat < rows := by omega
      refine ⟨fun p hp => List.mem_cons_of_mem _ (hV p hp), ?_, ?_, ?_, ?_⟩
      · intro p hp
        rcases List.mem_cons.mp hp with rfl | hp
        · exact ⟨List.mem_cons_self _ _, fun hpV => hnv (hV _ hpV), hm⟩
        · obtain ⟨h₁, h₂, h₃⟩ := hstack p hp
          exact ⟨List.mem_cons_of_mem _ h₁, h₂, h₃⟩
      · intro p hp
        obtain ⟨h₁, h₂, h₃⟩ := hcells p hp
        exact ⟨List.mem_cons_of_mem _ h₁, h₂, h₃⟩
      · exact le_trans (min_le_left _ _) (le_trans hminmax (le_max_left _ _))
      · exact max_lt hmax hrow
    · exact ⟨hV, hstack, hcells, hminmax, hmax⟩
  · exact ⟨hV, hstack, hcells, hminmax, hmax⟩

theorem floodLoop_inv (m : ℕ → ℕ → Bool) (rows cols : ℕ) (V₀ : List (ℕ × ℕ)) :
    ∀ (fuel : ℕ) (st : FloodState), FloodInv m rows V₀ st →
    FloodInv m rows V₀ (floodLoop m rows cols fuel st) := by
  intro fuel
  induction fuel with
  | zero => exact fun st h => h
  | succ f ih =>
    intro st h
    cases hstack : st.stack with
    | nil => simpa [floodLoop, hstack] using h
    | cons p rest =>
      obtain ⟨r, c⟩ := p
      have h₁ : FloodInv m rows V₀
          { st with stack := rest, cells := st.cells ++ [(r, c)] } := by
        obtain ⟨hV, hst, hc, hmm, hmx⟩ := h
        refine ⟨hV, ?_, ?_, hmm, hmx⟩
        · exact fun p hp => hst p (by rw [hstack]; exact List.mem_cons_of_mem _ hp)
        · intro p hp
          rcases List.mem_append.mp hp with hp | hp
          · exact hc p hp
          · simp only [List.mem_singleton] at hp
            subst hp
            exact hst _ (by rw [hstack]; exact List.mem_cons_self _ _)
      have hfold : ∀ (l : List (ℤ × ℤ)) (s : FloodState), FloodInv m rows V₀ s →
          FloodInv m rows V₀
            (l.foldl (fun s d => tryPush m rows cols s ((r : ℤ) + d.1, (c : ℤ) + d.2)) s) := by
        intro l
        induction l with
        | nil => exact fun s hs => hs
        | cons d t iht => exact fun s hs => iht _ (tryPush_inv hs)
      have := ih _ (hfold neighborOffsets _ h₁)
      simpa [floodLoop, hstack] using this

theorem expand_region_spec {data : Grid} {V₀ : List (ℕ × ℕ)} {sr sc : ℕ}
    (hm : gridHasData data sr sc = true) (hnv : (sr, sc) ∉ V₀) :
    (∀ p ∈ (expand_region (gridHasData data) data.length (maxRowLen data) sr sc V₀).1.cells,
      gridHasData data p.1 p.2 = true ∧ p ∉ V₀ ∧
      p ∈ (expand_region (gridHasData data) data.length (maxRowLen data) sr sc V₀).2) ∧
    (∀ p ∈ V₀, p ∈ (expand_region (gridHasData data) data.length (maxRowLen data) sr sc V₀).2) ∧
    (expand_region (gridHasData data) data.length (maxRowLen data) sr sc V₀).1.min_row ≤
      (expand_region (gridHasData data) data.length (maxRowLen data) sr sc V₀).1.max_row ∧
    (expand_region (gridHasData data) data.length (maxRowLen data) sr sc V₀).1.max_row <
      data.length ∧
    (expand_region (gridHasData data) data.length (maxRowLen data) sr sc V₀).1.area =
      (expand_region (gridHasData data) data.length (maxRowLen data) sr sc V₀).1.cells.length := by
  have h0 : FloodInv (gridHasData data) data.length V₀
      ⟨(sr, sc) :: V₀, [(sr, sc)], [], sr, sr, sc, sc⟩ := by
    refine ⟨fun p hp => List.mem_cons_of_mem _ hp, ?_, by simp, le_refl _, (gridHasData_lt hm).1⟩
    intro p hp
    simp only [List.mem_singleton] at hp
    subst hp
    exact ⟨List.mem_cons_self _ _, hnv, hm⟩
  have h1 := floodLoop_inv (gridHasData data) data.length (maxRowLen data) V₀
    (2 * data.length * maxRowLen data + 1) _ h0
  obtain ⟨hV, _, hcells, hmm, hmx⟩ := h1
  exact ⟨fun p hp => ⟨(hcells p hp).2.2, (hcells p hp).2.1, (hcells p hp).1⟩,
    hV, hmm, hmx, rfl⟩

theorem find_data_regions_spec (data : Grid) :
    (∀ reg ∈ find_data_regions data, 2 ≤ reg.area ∧
      (∀ p ∈ reg.cells, gridHasData data p.1 p.2 = true) ∧
      reg.min_row ≤ reg.max_row ∧ reg.max_row < data.length) ∧
    List.Pairwise (fun r₁ r₂ => ∀ p ∈ r₁.cells, p ∉ r₂.cells) (find_data_regions data) := by
  by_cases hd : data = []
  · subst hd
    exact ⟨by simp [find_data_regions], by simp [find_data_regions]⟩
  · have main : ∀ (scan : List (ℕ × ℕ)) (acc : List Region × List (ℕ × ℕ)),
        RegionsInv (gridHasData data) data.length acc →
        RegionsInv (gridHasData data) data.length
          (scan.foldl (fun acc p =>
            if gridHasData data p.1 p.2 = true ∧ p ∉ acc.2 then
              let res := expand_region (gridHasData data) data.length (maxRowLen data)
                p.1 p.2 acc.2
              (if res.1.area > 1 then acc.1 ++ [res.1] else acc.1, res.2)
            else acc) acc) := by
      intro scan
      induction scan with
      | nil => exact fun acc h => h
      | cons p t ih =>
        intro acc h
        apply ih
        dsimp only
        by_cases hc : gridHasData data p.1 p.2 = true ∧ p ∉ acc.2
        · rw [if_pos hc]
          obtain ⟨hregs, hpw⟩ := h
          obtain ⟨hnew, hV₀sub, hbmm, hbmx, harea⟩ := expand_region_spec hc.1 hc.2
          have holdref : ∀ reg ∈ acc.1, 2 ≤ reg.area ∧
              (∀ q ∈ reg.cells, gridHasData data q.1 q.2 = true ∧
                q ∈ (expand_region (gridHasData data) data.length (maxRowLen data)
                  p.1 p.2 acc.2).2) ∧
              reg.min_row ≤ reg.max_row ∧ reg.max_row < data.length := by
            intro reg hreg
            obtain ⟨ha, hcellprops, hm1, hm2⟩ := hregs reg hreg
            exact ⟨ha, fun q hq => ⟨(hcellprops q hq).1, hV₀sub q (hcellprops q hq).2⟩, hm1, hm2⟩
          by_cases hb : (expand_region (gridHasData data) data.length (maxRowLen data)
              p.1 p.2 acc.2).1.area > 1
          · rw [if_pos hb]
            constructor
            · intro reg hreg
              rcases List.mem_append.mp hreg with hreg | hreg
              · exact holdref reg hreg
              · simp only [List.mem_singleton] at hreg
                subst hreg
                exact ⟨by omega, fun q hq => ⟨(hnew q hq).1, (hnew q hq).2.2⟩, hbmm, hbmx⟩
            · rw [List.pairwise_append]
              refine ⟨hpw, List.pairwise_singleton _ _, ?_⟩
              intro r₁ hr₁ r₂ hr₂
              simp only [List.mem_singleton] at hr₂
              subst hr₂
              intro q hq hq'
              exact (hnew q hq').2.1 ((hregs r₁ hr₁).2.1 q hq).2
          · rw [if_neg hb]
            exact ⟨holdref, hpw⟩
        · rw [if_neg hc]
          exact h
    have hres := main ((List.range data.length).flatMap fun i =>
        (List.range (maxRowLen data)).map fun j => (i, j)) ([], [])
      ⟨by simp, by simp⟩
    obtain ⟨hregs, hpw⟩ := hres
    constructor
    · intro reg hreg
      have hreg' : reg ∈ (((List.range data.length).flatMap fun i =>
          (List.range (maxRowLen data)).map fun j => (i, j)).foldl (fun acc p =>
            if gridHasData data p.1 p.2 = true ∧ p ∉ acc.2 then
              let res := expand_region (gridHasData data) data.length (maxRowLen data)
                p.1 p.2 acc.2
              (if res.1.area > 1 then acc.1 ++ [res.1] else acc.1, res.2)
            else acc) ([], [])).1 := by
        simpa [find_data_regions, hd] using hreg
      obtain ⟨ha, hcp, hm1, hm2⟩ := hregs reg hreg'
      exact ⟨ha, fun q hq => (hcp q hq).1, hm1, hm2⟩
    · have : find_data_regions data = (((List.range data.length).flatMap fun i =>
          (List.range (maxRowLen data)).map fun j => (i, j)).foldl (fun acc p =>
            if gridHasData data p.1 p.2 = true ∧ p ∉ acc.2 then
              let res := expand_region (gridHasData data) data.length (maxRowLen data)
                p.1 p.2 acc.2
              (if res.1.area > 1 then acc.1 ++ [res.1] else acc.1, res.2)
            else acc) ([], [])).1 := by
        simp [find_data_regions, hd]
      rw [this]
      exact hpw

/-- Shape of `check_table_structure`: either the check fails, or both index
fields are set, the data-start index is the successor of the header index,
and it lies strictly inside the grid (since the data slice was non-empty). -/
theorem check_table_structure_shape (cfg : DetectorConfig) (data : Grid) :
    (check_table_structure cfg data).is_table = false ∨
    ∃ hi, (check_table_structure cfg data).header_index = some hi ∧
      (check_table_structure cfg data).data_start_index = some (hi + 1) ∧
      hi + 1 < data.length := by
  unfold check_table_structure
  split
  · exact Or.inl rfl
  · split
    · exact Or.inl rfl
    next hi hfh =>
      dsimp only
      split
      · exact Or.inl rfl
      · split
        next h2 => exact Or.inl rfl
        next h2 =>
          split
          · refine Or.inr ⟨hi, rfl, rfl, ?_⟩
            by_contra hlen
            exact h2 (List.drop_eq_nil_of_le (by omega))
          · exact Or.inl rfl

/-- The bounding-box sub-grid has exactly `max_row + 1 - min_row` rows when
the bottom row is inside the grid. -/
theorem regionSubgrid_length {data : Grid} {reg : Region}
    (h : reg.max_row < data.length) :
    (regionSubgrid data reg).length = reg.max_row + 1 - reg.min_row := by
  unfold regionSubgrid
  rw [List.length_map, List.length_range']
  omega

/-- When `analyze_region` reports a table on a well-formed region, the
absolute header and data-start rows are consecutive and stay within the
region's bottom row. -/
theorem analyze_region_table {cfg : DetectorConfig} {data : Grid} {reg : Region}
    (hwf₁ : reg.min_row ≤ reg.max_row) (hwf₂ : reg.max_row < data.length)
    (h : (analyze_region cfg data reg).rtype = "table") :
    ∃ hr ds, (analyze_region cfg data reg).header_row = some hr ∧
      (analyze_region cfg data reg).data_start_row = some ds ∧
      hr < ds ∧ ds ≤ reg.max_row := by
  unfold analyze_region at h ⊢
  dsimp only at h ⊢
  by_cases ht : (check_table_structure cfg (regionSubgrid data reg)).is_table = true
  · rw [if_pos ht] at h ⊢
    rcases check_table_structure_shape cfg (regionSubgrid data reg) with hsh | ⟨hi, hh, hd, hlt⟩
    · rw [hsh] at ht
      exact absurd ht (by decide)
    · have hlen := regionSubgrid_length hwf₂
      refine ⟨reg.min_row + hi, reg.min_row + (hi + 1), ?_, ?_, by omega, by omega⟩
      · simp [hh]
      · simp [hd]
  · rw [if_neg ht] at h
    split at h
    · exact absurd (show "key_value" = "table" from h) (by decide)
    · exact absurd (show "unknown" = "table" from h) (by decide)

/-- Fold invariant preservation where the step lemma may use membership of
the element in the folded list. -/
theorem foldl_inv_mem {α β : Type} {P : α → Prop} (f : α → β → α) :
    ∀ (l : List β) (a : α), (∀ b ∈ l, ∀ x, P x → P (f x b)) → P a → P (l.foldl f a) := by
  intro l
  induction l with
  | nil => exact fun a _ h₀ => h₀
  | cons b t ih =>
    intro a hstep h₀
    exact ih (f a b) (fun c hc x hx => hstep c (List.mem_cons_of_mem b hc) x hx)
      (hstep b (List.mem_cons_self b t) a h₀)

/-- `analysisStep` preserves `AnalysisInv` on well-formed regions: the table
branch either installs consistent bounds and rows (when the bounds slot is
empty) or leaves all four fields alone; the other branches never touch them. -/
theorem analysisStep_inv {cfg : DetectorConfig} {data : Grid} {reg : Region}
    (hwf₁ : reg.min_row ≤ reg.max_row) (hwf₂ : reg.max_row < data.length)
    {a : Analysis} (h : AnalysisInv a) : AnalysisInv (analysisStep cfg data a reg) := by
  obtain ⟨h₁, h₂⟩ := h
  unfold analysisStep
  dsimp only
  by_cases ht : (analyze_region cfg data reg).rtype = "table"
  · rw [if_pos ht]
    obtain ⟨hr, ds, hh, hd, hlt, hle⟩ := analyze_region_table hwf₁ hwf₂ ht
    by_cases hb : a.table_bounds = Option.none
    · rw [if_pos hb]
      refine ⟨fun _ => by simp, fun b hbeq => ?_⟩
      obtain rfl : reg = b := by injection hbeq
      exact ⟨hr, ds, hh, hd, hlt, hle⟩
    · rw [if_neg hb]
      exact ⟨fun _ => hb, fun b hbeq => h₂ b hbeq⟩
  · rw [if_neg ht]
    by_cases hk : (analyze_region cfg data reg).rtype = "key_value"
    · rw [if_pos hk]
      exact ⟨h₁, h₂⟩
    · rw [if_neg hk]
      exact ⟨h₁, h₂⟩

/-- The analysis produced by `analyze_data_patterns` satisfies
`AnalysisInv`: bounds are set whenever a table was found, and set bounds come
with consistent header and data-start rows. -/
theorem analyze_data_patterns_inv (cfg : DetectorConfig) (data : Grid) :
    AnalysisInv (analyze_data_patterns cfg data) := by
  unfold analyze_data_patterns
  dsimp only
  have hwf := (find_data_regions_spec data).1
  by_cases hr : find_data_regions data = []
  · rw [if_pos hr]
    exact ⟨fun h => absurd (show false = true from h) (by decide), fun b hb => Option.noConfusion hb⟩
  · rw [if_neg hr]
    have hfold : AnalysisInv ((find_data_regions data).foldl (analysisStep cfg data)
        ⟨false, false, false, 0, 0, 0, Option.none, Option.none, Option.none, [],
         find_data_regions data⟩) := by
      refine foldl_inv_mem _ _ _ (fun reg hreg x hx => ?_) ?_
      · exact analysisStep_inv (hwf reg hreg).2.2.1 (hwf reg hreg).2.2.2 hx
      · exact ⟨fun h => absurd (show false = true from h) (by decide), fun b hb => Option.noConfusion hb⟩
    split
    · exact hfold
    · exact hfold

/-- `analysisStep` never writes the `mixed_structure` flag. -/
theorem analysisStep_mixed (cfg : DetectorConfig) (data : Grid) (a : Analysis)
    (reg : Region) : (analysisStep cfg data a reg).mixed_structure = a.mixed_structure := by
  unfold analysisStep
  dsimp only
  split
  · split
    · rfl
    · rfl
  · split
    · rfl
    · rfl

/-- The `mixed_structure` flag of the final analysis is set only when a
table was found: the loop never writes it, and the post-loop update sets it
exactly under `has_table_structure ∧ has_key_value_pairs`. -/
theorem analyze_mixed_imp_table (cfg : DetectorConfig) (data : Grid) :
    (analyze_data_patterns cfg data).mixed_structure = true →
    (analyze_data_patterns cfg data).has_table_structure = true := by
  unfold analyze_data_patterns
  dsimp only
  have hf : ∀ (l : List Region) (a : Analysis),
      (l.foldl (analysisStep cfg data) a).mixed_structure = a.mixed_structure := by
    intro l
    induction l with
    | nil => intro a; rfl
    | cons r t ih => intro a; rw [List.foldl_cons, ih, analysisStep_mixed]
  split
  · intro h
    exact absurd (show false = true from h) (by decide)
  · split
    next hcond =>
      intro _
      exact hcond.1
    next hcond =>
      intro h
      have h2 : ((find_data_regions data).foldl (analysisStep cfg data)
          ⟨false, false, false, 0, 0, 0, Option.none, Option.none, Option.none, [],
           find_data_regions data⟩).mixed_structure = true := h
      rw [hf] at h2
      exact absurd (show false = true from h2) (by decide)

/-- C6: whenever `detect_structure` returns type `"structured"`, the result
carries table bounds, a header row and a data-start row, the data-start row
is strictly below the header row, and both lie within the reported table
bounds (the data-start row does not exceed the bounds' bottom row). -/
theorem structured_decision_rows_consistent (cfg : DetectorConfig) (data : Grid)
    (h : (detect_structure cfg data).typeName = "structured") :
    ∃ b hr ds, (detect_structure cfg data).tableBounds = some b ∧
      (detect_structure cfg data).headerRow = some hr ∧
      (detect_structure cfg data).dataStartRow = some ds ∧
      hr < ds ∧ ds ≤ b.max_row := by
  unfold detect_structure at h ⊢
  by_cases hd : data = []
  · rw [if_pos hd] at h
    exact absurd (show "empty" = "structured" from h) (by decide)
  · rw [if_neg hd] at h ⊢
    dsimp only at h ⊢
    obtain ⟨h₁, h₂⟩ := analyze_data_patterns_inv cfg data
    by_cases ht : (analyze_data_patterns cfg data).has_table_structure = true
    · rw [if_pos ht] at h ⊢
      cases hb : (analyze_data_patterns cfg data).table_bounds with
      | none => exact absurd hb (h₁ ht)
      | some b =>
        obtain ⟨hr, ds, hh, hdd, hlt, hle⟩ := h₂ b hb
        refine ⟨b, hr, ds, ?_, ?_, ?_, hlt, hle⟩
        · simp [Decision.tableBounds, hb]
        · simpa [Decision.headerRow] using hh
        · simpa [Decision.dataStartRow] using hdd
    · rw [if_neg ht] at h
      split at h
      · exact absurd (show "unstructured" = "structured" from h) (by decide)
      · split at h
        · exact absurd (show "semi_structured" = "structured" from h) (by decide)
        · exact absurd (show "unknown" = "structured" from h) (by decide)

/-! ## All-`None` grids (claim C4) -/

/-- Folding a function that fixes the accumulator leaves it unchanged. -/
theorem foldl_fixed {α β : Type} (f : α → β → α) (a : α) :
    ∀ (l : List β), (∀ b ∈ l, f a b = a) → l.foldl f a = a := by
  intro l
  induction l with
  | nil => intro _; rfl
  | cons b t ih =>
    intro h
    rw [List.foldl_cons, h b (List.mem_cons_self b t)]
    exact ih fun c hc => h c (List.mem_cons_of_mem b hc)

/-- An all-`None` grid has no data cells. -/
theorem gridHasData_all_none {data : Grid}
    (hall : ∀ row ∈ data, ∀ c ∈ row, c = Cell.none) (i j : ℕ) :
    gridHasData data i j = false := by
  unfold gridHasData
  cases hrow : data.get? i with
  | none => rfl
  | some row =>
    dsimp only
    cases hc : row.get? j with
    | none => rfl
    | some c =>
      dsimp only
      rw [hall row (List.get?_mem hrow) c (List.get?_mem hc)]
      rfl

/-- C4: for every non-empty all-`None` grid, region discovery returns no
regions — but `detect_structure` then classifies the sheet as `"unknown"`
with confidence 0, not as `"empty"` with confidence 1 (the `"empty"` branch
fires only on a grid with no rows at all). This is the amended statement;
`all_none_grid_counterexample` refutes the claimed `"empty"`/1.0 output. -/
theorem all_none_grid_unknown (cfg : DetectorConfig) (data : Grid)
    (hne : data ≠ []) (hall : ∀ row ∈ data, ∀ c ∈ row, c = Cell.none) :
    find_data_regions data = [] ∧
    (detect_structure cfg data).typeName = "unknown" ∧
    (detect_structure cfg data).confidence = 0 := by
  have hm : ∀ i j, gridHasData data i j = false := gridHasData_all_none hall
  have hregions : find_data_regions data = [] := by
    unfold find_data_regions
    rw [if_neg hne]
    dsimp only
    have hfold := foldl_fixed
      (fun (acc : List Region × List (ℕ × ℕ)) p =>
        if gridHasData data p.1 p.2 = true ∧ p ∉ acc.2 then
          let res := expand_region (gridHasData data) data.length (maxRowLen data)
            p.1 p.2 acc.2
          (if res.1.area > 1 then acc.1 ++ [res.1] else acc.1, res.2)
        else acc)
      ([], [])
      ((List.range data.length).flatMap fun i =>
        (List.range (maxRowLen data)).map fun j => (i, j))
      (by
        intro p hp
        dsimp only
        rw [if_neg]
        intro hcond
        rw [hm p.1 p.2] at hcond
        exact absurd hcond.1 (by decide))
    rw [hfold]
  have hanalysis : analyze_data_patterns cfg data =
      ⟨false, false, false, 0, 0, 0, Option.none, Option.none, Option.none, [],
       find_data_regions data⟩ := by
    unfold analyze_data_patterns
    dsimp only
    rw [if_pos hregions]
  refine ⟨hregions, ?_, ?_⟩
  · unfold detect_structure
    rw [if_neg hne]
    dsimp only
    rw [hanalysis]
    rfl
  · unfold detect_structure
    rw [if_neg hne]
    dsimp only
    rw [hanalysis]
    rfl

/-! ## Column-name cleaning (claim C7) -/

/-- `clean_column_names` as a fold over `enumFrom 0` (the shape the fold
lemmas speak about). -/
theorem clean_column_names_eq_fold (columns : List Cell) :
    clean_column_names columns = (List.enumFrom 0 columns).foldl
      (fun a ic => a ++ [dedupName (cleanBaseName ic.1 ic.2) a]) [] := rfl

/-- C7: `clean_column_names` preserves the column count, produces pairwise
distinct non-empty names, and keeps a name whose cleaned base collides with
no earlier output name; on `["A","A","A"]` it yields `["A","A_1","A_2"]`.
The claim's stronger phrasing — every first occurrence is kept unchanged
and later duplicates get `_1`, `_2`, … — fails when an input name collides
with an already-suffixed output (`clean_column_names_counterexample`). -/
theorem clean_column_names_unique (columns : List Cell) :
    (clean_column_names columns).length = columns.length ∧
    (clean_column_names columns).Nodup ∧
    (∀ n ∈ clean_column_names columns, n ≠ "") ∧
    (∀ i, i < columns.length →
      cleanBaseName i (columns.getD i Cell.none) ∉ (clean_column_names columns).take i →
      (clean_column_names columns).getD i "" = cleanBaseName i (columns.getD i Cell.none)) ∧
    clean_column_names [Cell.str "A", Cell.str "A", Cell.str "A"] = ["A", "A_1", "A_2"] := by
  obtain ⟨hlen, -, hnd, hne⟩ := cleanFold_props columns 0 []
  refine ⟨?_, ?_, ?_, ?_, by decide⟩
  · rw [clean_column_names_eq_fold, hlen]
    simp
  · rw [clean_column_names_eq_fold]
    exact hnd List.nodup_nil
  · rw [clean_column_names_eq_fold]
    exact hne (by simp)
  · intro i hi hnotin
    have h := cleanFold_first_occ columns 0 [] i hi
    simp only [List.length_nil, Nat.zero_add] at h
    rw [clean_column_names_eq_fold] at hnotin ⊢
    exact h hnotin

/-! ## The type cascade's boolean priority (claim C8) -/

/-- `defaultSample` satisfies the sampler contract. -/
theorem samplerOK_defaultSample : SamplerOK defaultSample := by
  intro col hlen
  unfold defaultSample
  rw [if_neg (by omega)]
  refine ⟨fun x hx => List.mem_of_mem_take hx, ?_⟩
  intro h
  have hl := congrArg List.length h
  rw [List.length_take] at hl
  simp only [List.length_nil] at hl
  omega

/-- C8: a column whose distinct lower-cased non-missing values form a
subset of the boolean token set of size at most 2 is typed `"boolean"` by
the inference cascade — and in particular never `"categorical"` — because
the boolean test runs before the categorical test. -/
theorem boolean_before_categorical (f : List Cell → List Cell) (hf : SamplerOK f)
    (name : String) (values : List Cell)
    (hne : values.filter (· ≠ Cell.none) ≠ [])
    (hsub : ∀ s ∈ distinctLoweredValues values, s ∈ booleanValues)
    (hcard : (distinctLoweredValues values).length ≤ 2) :
    inferColumnType f name values = "boolean" ∧
    inferColumnType f name values ≠ "categorical" := by
  have hbool : ∀ sample : List Cell,
      (∀ x ∈ sample, x ∈ values.filter (· ≠ Cell.none)) →
      is_boolean_column sample = true := by
    intro sample hsamp
    unfold is_boolean_column
    dsimp only
    rw [Bool.and_eq_true]
    have hmem : ∀ x ∈ (sample.map fun c => pyLower (pyStr c)).dedup,
        x ∈ distinctLoweredValues values := by
      intro x hx
      rw [List.mem_dedup] at hx
      obtain ⟨c, hc, rfl⟩ := List.mem_map.mp hx
      unfold distinctLoweredValues
      rw [List.mem_dedup]
      exact List.mem_map.mpr ⟨c, hsamp c hc, rfl⟩
    constructor
    · rw [decide_eq_true_eq]
      calc (sample.map fun c => pyLower (pyStr c)).dedup.length
          ≤ (distinctLoweredValues values).length :=
            List.Subperm.length_le ((List.nodup_dedup _).subperm hmem)
        _ ≤ 2 := hcard
    · rw [List.all_eq_true]
      intro x hx
      rw [decide_eq_true_eq]
      exact hsub x (hmem x hx)
  have hmain : inferColumnType f name values = "boolean" := by
    unfold inferColumnType
    dsimp only
    rw [if_neg (fun h0 => hne (List.length_eq_zero.mp h0))]
    by_cases hlen : (values.filter (· ≠ Cell.none)).length ≤ 100
    · rw [if_pos hlen, if_pos (hbool _ (fun x hx => hx))]
    · rw [if_neg hlen,
        if_pos (hbool _ (fun x hx => (hf (values.filter (· ≠ Cell.none)) (by omega)).1 x hx))]
  refine ⟨hmain, ?_⟩
  rw [hmain]
  decide

/-! ## Empty input to the cleaner (claim C9) -/

/-- C9: when the extracted table has no columns or no data rows,
`clean_structured_data` returns the explicit empty-result shape (empty
columns, data, types, missing-value and description maps, row count 0). -/
theorem clean_structured_data_empty_input (f : List Cell → List Cell) (td : TableData)
    (h : td.columns = [] ∨ td.data = []) :
    clean_structured_data f td = emptyCleanResult := by
  unfold clean_structured_data
  rw [if_pos h]

/-- Witness for C9 at the concrete input with no columns. -/
theorem clean_structured_data_empty_input_witness :
    ((⟨[], [[Cell.str "x"]]⟩ : TableData).columns = [] ∨
      (⟨[], [[Cell.str "x"]]⟩ : TableData).data = []) ∧
    clean_structured_data defaultSample ⟨[], [[Cell.str "x"]]⟩ = emptyCleanResult :=
  ⟨Or.inl rfl,
   clean_structured_data_empty_input defaultSample ⟨[], [[Cell.str "x"]]⟩ (Or.inl rfl)⟩

/-! ## Missing values after integer conversion (claim C10) -/

/-- `lookup` through a key-preserving map. -/
theorem lookup_map_snd {β γ : Type} (g : String → β → γ) :
    ∀ (df : List (String × β)) (k : String),
      (df.map fun nc => (nc.1, g nc.1 nc.2)).lookup k = (df.lookup k).map fun v => g k v := by
  intro df
  induction df with
  | nil => intro k; rfl
  | cons nc t ih =>
    intro k
    rcases nc with ⟨a, b⟩
    by_cases h : k = a
    · subst h
      simp [List.lookup]
    · simp [List.lookup, beq_eq_false_iff_ne.mpr h, ih k]

/-- `apply_data_types` written as a key-preserving map. -/
theorem apply_data_types_eq (df : DataFrame) (types : List (String × String)) :
    apply_data_types df types = df.map fun nc =>
      (nc.1, applyTypesCell types nc.1 nc.2) := by
  unfold apply_data_types applyTypesCell
  congr 1
  funext nc
  cases htl : types.lookup nc.1 with
  | none => rfl
  | some dt => rfl

/-- The missing-value entry of one column, through `lookup`. -/
theorem calculate_missing_lookup (df : DataFrame) (k : String) :
    (calculate_missing_values df).lookup k = (df.lookup k).map fun v =>
      (⟨(v.filter (· = Cell.none)).length,
        if dfLen df > 0 then
          pyRound2 (((v.filter (· = Cell.none)).length : ℚ) / (dfLen df : ℚ) * 100)
        else 0⟩ : MissingStat) :=
  lookup_map_snd
    (fun (_ : String) (v : List Cell) => (⟨(v.filter (· = Cell.none)).length,
      if dfLen df > 0 then
        pyRound2 (((v.filter (· = Cell.none)).length : ℚ) / (dfLen df : ℚ) * 100)
      else 0⟩ : MissingStat)) df k

/-- A successfully integer-converted column holds no missing cells: every
entry is `Cell.int _` (missing inputs were filled with 0 first). -/
theorem intConvert_no_none {vals conv : List Cell} (h : intConvert vals = some conv) :
    conv.filter (· = Cell.none) = [] := by
  unfold intConvert at h
  dsimp only at h
  split at h
  · have hconv : ((vals.map fun c => (pdToNumeric c).getD 0).map fun q => Cell.int q.num)
        = conv := by injection h
    subst hconv
    rw [List.filter_eq_nil_iff]
    intro a ha
    obtain ⟨q, -, rfl⟩ := List.mem_map.mp ha
    exact fun hcontra => Cell.noConfusion (of_decide_eq_true hcontra)
  · exact Option.noConfusion h

/-- Python bankers' rounding of 0 at two decimals is 0. -/
theorem pyRound2_zero : pyRound2 0 = 0 := by
  unfold pyRound2
  norm_num

/-- C10: `clean_structured_data` computes missing-value statistics after
type conversion; a column inferred `"integer"` whose conversion succeeds
therefore reports `{count := 0, percentage := 0}` no matter how many
missing cells the input column held (they were filled with 0 first). -/
theorem integer_conversion_hides_missing (f : List Cell → List Cell) (td : TableData)
    (col : String) (hcols : td.columns ≠ []) (hdata : td.data ≠ [])
    (htype : (infer_column_types f (cleanedDF td)).lookup col = some "integer")
    (vals : List Cell) (hvals : (cleanedDF td).lookup col = some vals)
    (hconv : (intConvert vals).isSome = true) :
    (clean_structured_data f td).missing_values.lookup col =
      some (⟨0, 0⟩ : MissingStat) := by
  obtain ⟨conv, hconveq⟩ := Option.isSome_iff_exists.mp hconv
  have happly : applyOneType "integer" vals = conv := by
    unfold applyOneType
    rw [if_pos rfl, hconveq]
    rfl
  have hfilter : conv.filter (· = Cell.none) = [] := intConvert_no_none hconveq
  have hdf2 : (apply_data_types (cleanedDF td)
      (infer_column_types f (cleanedDF td))).lookup col = some conv := by
    rw [apply_data_types_eq]
    rw [lookup_map_snd (applyTypesCell (infer_column_types f (cleanedDF td)))]
    rw [hvals, Option.map_some']
    unfold applyTypesCell
    rw [htype]
    dsimp only
    rw [happly]
  unfold clean_structured_data
  rw [if_neg (not_or.mpr ⟨hcols, hdata⟩)]
  dsimp only
  rw [calculate_missing_lookup, hdf2, Option.map_some', hfilter]
  simp only [List.length_nil, Nat.cast_zero, zero_div, zero_mul, pyRound2_zero, ite_self]

/-- C5: every region returned by `find_data_regions` has area at least 2
and records only non-empty (data) cells of the grid, and the returned
regions are pairwise disjoint: no cell coordinate appears in the cell sets
of two regions. -/
theorem region_finder_partition (data : Grid) :
    (∀ reg ∈ find_data_regions data, 2 ≤ reg.area ∧
      ∀ p ∈ reg.cells, gridHasData data p.1 p.2 = true) ∧
    List.Pairwise (fun r₁ r₂ => ∀ p ∈ r₁.cells, p ∉ r₂.cells) (find_data_regions data) := by
  obtain ⟨h₁, h₂⟩ := find_data_regions_spec data
  exact ⟨fun reg hreg => ⟨(h₁ reg hreg).1, (h₁ reg hreg).2.1⟩, h₂⟩

/-! ## Concrete evaluations

The arithmetic of the detector and the cleaner is rational; `Rat.add` and
friends are irreducible by default, which blocks kernel evaluation, so the
concrete theorems below sit in a section making them locally reducible. -/

section ConcreteEvaluations

attribute [local semireducible] Rat.mul Rat.add Rat.inv Rat.sub

set_option maxRecDepth 40000

set_option maxHeartbeats 4000000

/-- C1: the spec expects a sheet holding both a table region and a
key-value region to come out `semi_structured` with the averaged
confidence. On `mixedGrid` the analysis does flag both kinds of region
(and sets `mixed_structure` with the averaged `overall_confidence`), but
`detect_structure` tests `has_table_structure` first and returns
`structured` with the table confidence; the `semi_structured` branch is
tested only after `has_table_structure` and `has_key_value_pairs`, both of
which `mixed_structure` implies, so no input at all can reach it. -/
theorem semi_structured_branch_unreachable :
    (analyze_data_patterns defaultDetectorConfig mixedGrid =
      ⟨true, true, true, 1, 1/3, 2/3, some tableRegion, some 0, some 1,
       [kvRegion], [tableRegion, kvRegion]⟩ ∧
     detect_structure defaultDetectorConfig mixedGrid =
       Decision.structured 1 (some tableRegion) (some 0) (some 1)) ∧
    ∀ (cfg : DetectorConfig) (data : Grid),
      (detect_structure cfg data).typeName ≠ "semi_structured" := by
  refine ⟨⟨by decide, by decide⟩, ?_⟩
  intro cfg data h
  unfold detect_structure at h
  by_cases hd : data = []
  · rw [if_pos hd] at h
    exact absurd (show "empty" = "semi_structured" from h) (by decide)
  · rw [if_neg hd] at h
    dsimp only at h
    by_cases ht : (analyze_data_patterns cfg data).has_table_structure = true
    · rw [if_pos ht] at h
      exact absurd (show "structured" = "semi_structured" from h) (by decide)
    · rw [if_neg ht] at h
      by_cases hk : (analyze_data_patterns cfg data).has_key_value_pairs = true
      · rw [if_pos hk] at h
        exact absurd (show "unstructured" = "semi_structured" from h) (by decide)
      · rw [if_neg hk] at h
        by_cases hm : (analyze_data_patterns cfg data).mixed_structure = true
        · exact ht (analyze_mixed_imp_table cfg data hm)
        · rw [if_neg hm] at h
          exact absurd (show "unknown" = "semi_structured" from h) (by decide)

/-- C2 amended: the scenario grid is detected as a structured table with
header row 0 and data-start row 1 and extracts the claimed columns and
data, but the type-inference cascade assigns `Revenue` the type `"date"`,
not `"integer"`: the date detector's Excel-serial fallback parses the
numeric strings `"100"` and `"200"` as dates before the numeric test runs. -/
theorem scenario_table_extraction_amended :
    detect_structure defaultDetectorConfig scenarioTableGrid =
      Decision.structured 1 (some tableRegion) (some 0) (some 1) ∧
    extract_table scenarioTableGrid
        (detect_structure defaultDetectorConfig scenarioTableGrid) =
      ⟨[Cell.str "Name", Cell.str "Revenue"],
       [[Cell.str "Acme", Cell.str "100"], [Cell.str "Beta", Cell.str "200"]]⟩ ∧
    (clean_structured_data defaultSample (extract_table scenarioTableGrid
        (detect_structure defaultDetectorConfig scenarioTableGrid))).columns =
      ["Name", "Revenue"] ∧
    (clean_structured_data defaultSample (extract_table scenarioTableGrid
        (detect_structure defaultDetectorConfig scenarioTableGrid))).data_types =
      [("Name", "text"), ("Revenue", "date")] :=
  ⟨by decide, by decide, by decide, by decide⟩

/-- C2 counterexample: the claimed `{Name: text, Revenue: integer}` typing
is not what the pipeline produces — `"100"` already parses as a date (an
Excel serial), so the whole `Revenue` column is typed `"date"`. -/
theorem scenario_revenue_date_counterexample :
    (clean_structured_data defaultSample (extract_table scenarioTableGrid
        (detect_structure defaultDetectorConfig scenarioTableGrid))).data_types ≠
      [("Name", "text"), ("Revenue", "integer")] ∧
    (parse_date (Cell.str "100")).isSome = true :=
  ⟨by decide, by decide⟩

/-- C3 amended: on the key-value scenario grid the parser yields `Name`
with no value (the neighbour `"Acme Corp"` is title-case, so `is_header`
rejects it as a value), then opens `"Acme Corp"` as a subsection holding
`Founded` and a `_content` list with the prose line `"1999"` (the value
cell `"1999"` is itself walked and lands in the pending prose). -/
theorem kv_scenario_parse_amended :
    parse_data_block kvScenarioGrid =
      [("COMPANY OVERVIEW", UVal.dict
        [("Name", UVal.none),
         ("Acme Corp", UVal.dict
           [("Founded", UVal.str "1999"), ("_content", UVal.list ["1999"])])])] := by
  decide

/-- C3 counterexample: the parser does not produce the claimed flat
document with `Name` bound to `"Acme Corp"`. -/
theorem kv_scenario_counterexample :
    parse_data_block kvScenarioGrid ≠
      [("COMPANY OVERVIEW", UVal.dict
        [("Name", UVal.str "Acme Corp"), ("Founded", UVal.str "1999")])] := by
  decide

/-- C4 counterexample: the concrete all-`None` grid is classified
`"unknown"` with confidence 0, not `"empty"` with confidence 1. -/
theorem all_none_grid_counterexample :
    (detect_structure defaultDetectorConfig allNoneGrid).typeName = "unknown" ∧
    (detect_structure defaultDetectorConfig allNoneGrid).typeName ≠ "empty" ∧
    (detect_structure defaultDetectorConfig allNoneGrid).confidence = 0 ∧
    (detect_structure defaultDetectorConfig allNoneGrid).confidence ≠ 1 ∧
    find_data_regions allNoneGrid = [] := by
  decide

/-- Witness for C4's amended theorem at the concrete all-`None` grid. -/
theorem all_none_grid_unknown_witness :
    allNoneGrid ≠ [] ∧
    (find_data_regions allNoneGrid = [] ∧
     (detect_structure defaultDetectorConfig allNoneGrid).typeName = "unknown" ∧
     (detect_structure defaultDetectorConfig allNoneGrid).confidence = 0) :=
  ⟨by decide, all_none_grid_unknown defaultDetectorConfig allNoneGrid (by decide) (by decide)⟩

/-- Witness for C6 at the structured scenario grid. -/
theorem structured_decision_rows_consistent_witness :
    (detect_structure defaultDetectorConfig scenarioTableGrid).typeName = "structured" ∧
    ∃ b hr ds,
      (detect_structure defaultDetectorConfig scenarioTableGrid).tableBounds = some b ∧
      (detect_structure defaultDetectorConfig scenarioTableGrid).headerRow = some hr ∧
      (detect_structure defaultDetectorConfig scenarioTableGrid).dataStartRow = some ds ∧
      hr < ds ∧ ds ≤ b.max_row :=
  ⟨by decide,
   structured_decision_rows_consistent defaultDetectorConfig scenarioTableGrid (by decide)⟩

/-- C7 counterexample: when an input name collides with an already
produced suffixed name, the first occurrence of that name is not kept:
cleaning `["A","A","A_1"]` renames the (first-occurrence) header `"A_1"`
to `"A_1_1"`, so the `_1`, `_2`, … description of the output is wrong. -/
theorem clean_column_names_counterexample :
    clean_column_names [Cell.str "A", Cell.str "A", Cell.str "A_1"] = ["A", "A_1", "A_1_1"] ∧
    clean_column_names [Cell.str "A", Cell.str "A", Cell.str "A_1"] ≠ ["A", "A_1", "A_2"] ∧
    cleanBaseName 2 (Cell.str "A_1") = "A_1" := by
  refine ⟨by decide, by decide, by decide⟩

/-- Witness for C8 at a concrete true/false column. -/
theorem boolean_before_categorical_witness :
    (∀ s ∈ distinctLoweredValues [Cell.str "true", Cell.str "false", Cell.str "true"],
      s ∈ booleanValues) ∧
    inferColumnType defaultSample "Flag" [Cell.str "true", Cell.str "false", Cell.str "true"]
      = "boolean" :=
  ⟨by decide,
   (boolean_before_categorical defaultSample samplerOK_defaultSample "Flag"
     [Cell.str "true", Cell.str "false", Cell.str "true"]
     (by decide) (by decide) (by decide)).1⟩

/-- Witness for C10 at the one-column integer table with a missing cell:
the input column has a missing cell, yet the reported statistics are 0. -/
theorem integer_conversion_hides_missing_witness :
    (infer_column_types defaultSample (cleanedDF amountTable)).lookup "Amount" =
      some "integer" ∧
    ((cleanedDF amountTable).lookup "Amount").getD [] ≠
      List.filter (· ≠ Cell.none) (((cleanedDF amountTable).lookup "Amount").getD []) ∧
    (clean_structured_data defaultSample amountTable).missing_values.lookup "Amount" =
      some (⟨0, 0⟩ : MissingStat) :=
  ⟨by decide, by decide,
   integer_conversion_hides_missing defaultSample amountTable "Amount"
     (by decide) (by decide) (by decide)
     [Cell.str "123456789", Cell.str "987654321", Cell.none] (by decide) (by decide)⟩

end ConcreteEvaluations

end Validator
